import Mathlib

/-!
Verification development for the alpha-back-verify-service repository.

The Python sources under `src/` are shallowly embedded: each Python
function that the properties below mention is translated into an
executable Lean definition operating on explicit data.  Strings are
handled through their character lists (`String.data`), so that every
string operation used by the embedding is structurally recursive and
reduces inside the kernel.  Python character-class tests (`isalpha`,
`isalnum`, `str.strip`) are modelled by their ASCII behaviour, which
coincides with Python on the ASCII range.  Mutable report objects are
threaded functionally; Python exceptions that escape a function are
modelled with `Except`.
-/

/-! ## Character-list string helpers (Python string semantics) -/

/-- Test whether `pat` is a leading segment of `l` (Python `startswith`). -/
def listLeads : List Char → List Char → Bool
  | [], _ => true
  | _ :: _, [] => false
  | a :: as, b :: bs => a == b && listLeads as bs

/-- Test whether `sub` occurs contiguously inside `l` (Python `sub in l`). -/
def listHasSub (sub : List Char) : List Char → Bool
  | [] => sub.isEmpty
  | c :: rest => listLeads sub (c :: rest) || listHasSub sub rest

/-- Python `needle in hay` on strings. -/
def pyInStr (needle hay : String) : Bool :=
  listHasSub needle.data hay.data

/-- Python `hay.startswith(pat)` on strings. -/
def pyStartsWith (hay pat : String) : Bool :=
  listLeads pat.data hay.data

/-- Python `hay.endswith(suffixStr)` on strings. -/
def pyEndsWith (hay suffixStr : String) : Bool :=
  listLeads suffixStr.data.reverse hay.data.reverse

/-- Python `s.split(sep)` for a single-character separator. -/
def splitCharList (sep : Char) : List Char → List (List Char)
  | [] => [[]]
  | c :: rest =>
    match splitCharList sep rest with
    | [] => if c == sep then [[], []] else [[c]]
    | g :: gs => if c == sep then [] :: g :: gs else (c :: g) :: gs

/-- Python `s.split(sep)` returning strings. -/
def pySplit (sep : Char) (s : String) : List String :=
  (splitCharList sep s.data).map String.mk

/-- Python `s.strip()` restricted to ASCII whitespace. -/
def pyStrip (l : List Char) : List Char :=
  ((l.dropWhile Char.isWhitespace).reverse.dropWhile Char.isWhitespace).reverse

/-- Truthiness of a Python string after `strip()`: `not s.strip()`. -/
def stripIsEmpty (s : String) : Bool :=
  (pyStrip s.data).isEmpty

/-- Replace every occurrence of `pat` (non-empty) in `l` by `rep`,
fuel-indexed so the recursion is structural (Python `str.replace`). -/
def pyReplaceAux (pat rep : List Char) : Nat → List Char → List Char
  | 0, l => l
  | _ + 1, [] => []
  | n + 1, c :: rest =>
    if !pat.isEmpty && listLeads pat (c :: rest) then
      rep ++ pyReplaceAux pat rep n (List.drop (pat.length - 1) rest)
    else
      c :: pyReplaceAux pat rep n rest

/-- Python `s.replace(pat, rep)` (for non-empty `pat`). -/
def pyReplace (s pat rep : String) : String :=
  String.mk (pyReplaceAux pat.data rep.data s.data.length s.data)

/-- Python `key.split('/')[-1]` — the basename used by the handler. -/
def basename (key : String) : String :=
  String.mk ((splitCharList '/' key.data).getLastD [])

/-- Base module of a dotted module path: `name.split('.')[0]`. -/
def baseModule (name : String) : String :=
  String.mk ((splitCharList '.' name.data).headD [])

/-! ## Association lists with Python-dict update semantics

Python dict assignment `d[k] = v` keeps the original position of an
existing key and appends new keys at the end; both report check maps and
extracted-file maps rely on this. -/

/-- Python `d[k] = v` on an insertion-ordered dictionary. -/
def alistUpsert (l : List (String × α)) (k : String) (v : α) : List (String × α) :=
  if l.any (fun p => p.1 == k) then
    l.map (fun p => if p.1 == k then (k, v) else p)
  else
    l ++ [(k, v)]

/-- Python `d.get(k)` on an insertion-ordered dictionary. -/
def alistGet (l : List (String × α)) (k : String) : Option α :=
  (l.find? (fun p => p.1 == k)).map (·.2)

theorem alistGet_upsert_self (l : List (String × α)) (k : String) (v : α) :
    alistGet (alistUpsert l k v) k = some v := by
  unfold alistUpsert alistGet
  by_cases h : l.any (fun p => p.1 == k) = true
  · simp only [h, if_true]
    induction l with
    | nil => simp at h
    | cons p t ih =>
      simp only [List.any_cons, Bool.or_eq_true] at h
      by_cases hp : p.1 == k
      · simp [List.find?, hp]
      · rcases h with h | h
        · simp [hp] at h
        · simpa [List.find?, hp] using ih h
  · simp only [h, if_false]
    induction l with
    | nil => simp [List.find?]
    | cons p t ih =>
      simp only [List.any_cons, Bool.or_eq_true, not_or] at h
      have hp : (p.1 == k) = false := by
        cases hpk : p.1 == k with
        | false => rfl
        | true => exact absurd hpk h.1
      simp only [List.cons_append, List.find?, hp]
      exact ih (by simpa using h.2)

theorem find?_mapUpsert_ne (t : List (String × α)) (k k' : String) (v : α)
    (h : k' ≠ k) :
    (t.map (fun p => if p.1 == k then (k, v) else p)).find? (fun p => p.1 == k')
      = t.find? (fun p => p.1 == k') := by
  induction t with
  | nil => simp
  | cons p t ih =>
    by_cases hp : (p.1 == k) = true
    · have h1 : (k == k') = false := by
        simp only [beq_eq_false_iff_ne, ne_eq]
        exact fun hkk => h hkk.symm
      have h2 : (p.1 == k') = false := by
        rw [show p.1 = k by simpa using hp]
        exact h1
      simp only [List.map_cons, if_pos hp, List.find?, h1, h2]
      exact ih
    · simp only [List.map_cons, if_neg hp, List.find?]
      cases hq : p.1 == k' with
      | true => simp [hq]
      | false =>
        simp only [hq]
        exact ih

theorem find?_appendSingle_ne (t : List (String × α)) (k k' : String) (v : α)
    (h : k' ≠ k) :
    (t ++ [(k, v)]).find? (fun p => p.1 == k') = t.find? (fun p => p.1 == k') := by
  induction t with
  | nil =>
    have h1 : (k == k') = false := by
      simp only [beq_eq_false_iff_ne, ne_eq]
      exact fun hkk => h hkk.symm
    simp [List.find?, h1]
  | cons p t ih =>
    simp only [List.cons_append, List.find?]
    cases hq : p.1 == k' with
    | true => simp [hq]
    | false =>
      simp only [hq]
      exact ih

theorem alistGet_upsert_ne (l : List (String × α)) (k k' : String) (v : α)
    (h : k' ≠ k) : alistGet (alistUpsert l k v) k' = alistGet l k' := by
  unfold alistUpsert alistGet
  by_cases ha : (l.any fun p => p.1 == k) = true
  · rw [if_pos ha, find?_mapUpsert_ne l k k' v h]
  · rw [if_neg ha, find?_appendSingle_ne l k k' v h]

/-! ## Error and warning messages

Each `add_error`/`add_warning` call site in the sources formats a message
string; the float formatting and f-string interpolation are abstracted
into one tagged constructor per call site carrying the interpolated data. -/

/-- Error messages, one constructor per `add_error` call site. -/
inductive ErrMsg
  | invalidJar
  | missingMetadata
  | missingModelClass
  | modelClassNotFound (cls : String)
  | fileTooLarge (size maxSize : Nat)
  | missingRequiredFiles (files : List String)
  | noClassFiles
  | invalidJson
  | missingFields (fields : List String)
  | invalidModelId
  | invalidVersion
  | invalidAuthor
  | invalidModelClass
  | invalidModelClassFormat (s : String)
  | invalidExpectedInputs
  | missingInputFields (fields : List String)
  | invalidOutputFormat
  | missingOutputFields (fields : List String)
  | srcParseError
  | disallowedImport (module : String) (line : Nat)
  | importNotWhitelisted (module : String) (line : Nat)
  | disallowedBuiltin (f : String) (line : Nat)
  | disallowedFileOp (op : String) (line : Nat)
  | disallowedNetworkOp (op : String) (line : Nat)
  | dangerousPattern (p : String) (line : Nat)
  | invalidClassFile (cls : String)
  | cannotParseClass
  | disallowedClassRef (cls : String)
  | disallowedPackageRef (cls : String)
  | disallowedMethodCall (m : String)
  | missingInterface (required : String) (found : List String)
  | invalidMethodSignature (name expected found : String)
  | missingMethod (name : String)
  deriving DecidableEq, Repr

/-- Warning messages, one constructor per `add_warning` call site. -/
inductive WarnMsg
  | suspiciousFieldAccess (field : String)
  deriving DecidableEq, Repr

/-! ## ReportGenerator (src/verifier/report_generator.py)

A check entry is the dict value stored in `self.checks`; every writer
sets `passed`, so the `.get("passed", False)` default never fires.
Timing and JSON serialisation are not modelled (no property uses them). -/

/-- One entry of the report check map. -/
structure CheckEntry where
  passed : Bool
  error : Option ErrMsg := none
  warning : Option WarnMsg := none
  deriving DecidableEq, Repr

/-- The mutable state of a `ReportGenerator`: its insertion-ordered check map. -/
structure Report where
  checks : List (String × CheckEntry)
  deriving DecidableEq, Repr

/-- Source `ReportGenerator.add_check_passed`. -/
def add_check_passed (r : Report) (check_name : String) : Report :=
  ⟨alistUpsert r.checks check_name ⟨true, none, none⟩⟩

/-- Source `ReportGenerator.add_check_failed`. -/
def add_check_failed (r : Report) (check_name : String) (error : ErrMsg) : Report :=
  ⟨alistUpsert r.checks check_name ⟨false, some error, none⟩⟩

/-- Source `ReportGenerator.add_error` (backwards-compatible alias; the severity
argument is accepted and ignored exactly as in the source). -/
def add_error (r : Report) (check_name : String) (error_message : ErrMsg)
    (_severity : String := "CRITICAL") : Report :=
  add_check_failed r check_name error_message

/-- Source `ReportGenerator.add_warning`: mutate the warning field of an existing
entry, or create a fresh passing entry carrying the warning. -/
def add_warning (r : Report) (check_name : String) (message : WarnMsg) : Report :=
  if r.checks.any (fun p => p.1 == check_name) then
    ⟨r.checks.map (fun p =>
      if p.1 == check_name then (p.1, { p.2 with warning := some message }) else p)⟩
  else
    ⟨r.checks ++ [(check_name, ⟨true, none, some message⟩)]⟩

/-- Source `ReportGenerator.is_verified`: non-empty check map and every entry passed. -/
def is_verified (r : Report) : Bool :=
  !r.checks.isEmpty && r.checks.all (fun p => p.2.passed)

/-- Look up the entry recorded under a check name. -/
def lookupCheck (r : Report) (k : String) : Option CheckEntry :=
  alistGet r.checks k

/-- Whether some recorded check has failed. -/
def has_failed_check (r : Report) : Bool :=
  r.checks.any (fun p => !p.2.passed)

/-- Whether some check other than `avoid` is recorded as failed. -/
def has_failed_away (r : Report) (avoid : String) : Prop :=
  ∃ k e, lookupCheck r k = some e ∧ e.passed = false ∧ k ≠ avoid

/-! ### Report lemmas -/

theorem lookupCheck_add_error_self (r : Report) (k : String) (m : ErrMsg) :
    lookupCheck (add_error r k m) k = some ⟨false, some m, none⟩ := by
  unfold add_error add_check_failed lookupCheck
  exact alistGet_upsert_self r.checks k _

theorem lookupCheck_add_error_ne (r : Report) (k k' : String) (m : ErrMsg)
    (h : k' ≠ k) : lookupCheck (add_error r k m) k' = lookupCheck r k' := by
  unfold add_error add_check_failed lookupCheck
  exact alistGet_upsert_ne r.checks k k' _ h

theorem lookupCheck_add_check_passed_self (r : Report) (k : String) :
    lookupCheck (add_check_passed r k) k = some ⟨true, none, none⟩ := by
  unfold add_check_passed lookupCheck
  exact alistGet_upsert_self r.checks k _

theorem lookupCheck_add_check_passed_ne (r : Report) (k k' : String)
    (h : k' ≠ k) : lookupCheck (add_check_passed r k) k' = lookupCheck r k' := by
  unfold add_check_passed lookupCheck
  exact alistGet_upsert_ne r.checks k k' _ h


theorem find?_mapWarn_self (l : List (String × CheckEntry)) (k : String)
    (f : CheckEntry → CheckEntry) :
    (l.map (fun p => if p.1 == k then (p.1, f p.2) else p)).find? (fun p => p.1 == k)
      = (l.find? (fun p => p.1 == k)).map (fun p => (p.1, f p.2)) := by
  induction l with
  | nil => simp
  | cons p t ih =>
    cases hp : p.1 == k with
    | true => simp [List.find?, hp]
    | false =>
      simp only [List.map_cons, List.find?, hp]
      simp only [Bool.false_eq_true, if_false, List.find?, hp]
      exact ih

theorem find?_mapWarn_ne (l : List (String × CheckEntry)) (k k' : String)
    (f : CheckEntry → CheckEntry) (h : k' ≠ k) :
    (l.map (fun p => if p.1 == k then (p.1, f p.2) else p)).find? (fun p => p.1 == k')
      = l.find? (fun p => p.1 == k') := by
  induction l with
  | nil => simp
  | cons p t ih =>
    cases hp : p.1 == k with
    | true =>
      have h2 : (p.1 == k') = false := by
        rw [show p.1 = k by simpa using hp]
        simp only [beq_eq_false_iff_ne, ne_eq]
        exact fun hkk => h hkk.symm
      simp only [List.map_cons, if_pos hp, List.find?, h2]
      exact ih
    | false =>
      simp only [List.map_cons, List.find?, hp]
      simp only [Bool.false_eq_true, if_false, List.find?]
      cases hq : p.1 == k' with
      | true => simp [hq]
      | false =>
        simp only [hq]
        exact ih

theorem anyKey_of_lookup_some (r : Report) (k : String) (e : CheckEntry)
    (h : lookupCheck r k = some e) : (r.checks.any fun p => p.1 == k) = true := by
  unfold lookupCheck alistGet at h
  cases hf : r.checks.find? (fun p => p.1 == k) with
  | none => simp [hf] at h
  | some q =>
    have hm : q ∈ r.checks := List.mem_of_find?_eq_some hf
    have hp := List.find?_some hf
    exact List.any_eq_true.mpr ⟨q, hm, by simpa using hp⟩

theorem any_eq_false_of_find?_none (l : List (String × CheckEntry)) (k : String)
    (h : l.find? (fun p => p.1 == k) = none) :
    (l.any fun p => p.1 == k) = false := by
  induction l with
  | nil => rfl
  | cons p t ih =>
    simp only [List.find?] at h
    cases hp : p.1 == k with
    | true => simp [hp] at h
    | false =>
      simp only [hp] at h
      simp only [List.any_cons, hp, Bool.false_or]
      exact ih h

theorem lookupCheck_add_warning_self_some (r : Report) (k : String) (m : WarnMsg)
    (e : CheckEntry) (h : lookupCheck r k = some e) :
    lookupCheck (add_warning r k m) k = some { e with warning := some m } := by
  unfold add_warning
  rw [if_pos (anyKey_of_lookup_some r k e h)]
  unfold lookupCheck alistGet at h ⊢
  rw [show (fun (p : String × CheckEntry) =>
        if p.1 == k then (p.1, { p.2 with warning := some m }) else p)
      = (fun p => if p.1 == k then (p.1, (fun c => { c with warning := some m }) p.2) else p)
      from rfl]
  rw [find?_mapWarn_self r.checks k (fun c => { c with warning := some m })]
  cases hf : r.checks.find? (fun p => p.1 == k) with
  | none => simp [hf] at h
  | some q =>
    simp only [hf, Option.map_some] at h ⊢
    have hq2 : q.2 = e := by simpa using h
    simp [hq2]

theorem lookupCheck_add_warning_self_none (r : Report) (k : String) (m : WarnMsg)
    (h : lookupCheck r k = none) :
    lookupCheck (add_warning r k m) k = some ⟨true, none, some m⟩ := by
  unfold add_warning
  have hf : r.checks.find? (fun p => p.1 == k) = none := by
    unfold lookupCheck alistGet at h
    cases hf : r.checks.find? (fun p => p.1 == k) with
    | none => rfl
    | some q => simp [hf] at h
  rw [if_neg (by simp [any_eq_false_of_find?_none r.checks k hf])]
  unfold lookupCheck alistGet
  rw [List.find?_append, hf]
  simp [List.find?]

theorem lookupCheck_add_warning_ne (r : Report) (k k' : String) (m : WarnMsg)
    (h : k' ≠ k) : lookupCheck (add_warning r k m) k' = lookupCheck r k' := by
  unfold add_warning
  by_cases ha : (r.checks.any fun p => p.1 == k) = true
  · rw [if_pos ha]
    unfold lookupCheck alistGet
    rw [show (fun (p : String × CheckEntry) =>
          if p.1 == k then (p.1, { p.2 with warning := some m }) else p)
        = (fun p => if p.1 == k then (p.1, (fun c => { c with warning := some m }) p.2) else p)
        from rfl]
    rw [find?_mapWarn_ne r.checks k k' (fun c => { c with warning := some m }) h]
  · rw [if_neg ha]
    unfold lookupCheck alistGet
    rw [find?_appendSingle_ne r.checks k k' _ h]

/-- Helper lemma: `add_warning` preserves a failing check recorded under any name. -/
theorem has_failed_away_add_warning_preserve (r : Report) (a k : String) (m : WarnMsg)
    (h : has_failed_away r a) : has_failed_away (add_warning r k m) a := by
  obtain ⟨k', e, hl, hp, hne⟩ := h
  by_cases hkk : k' = k
  · subst hkk
    exact ⟨k', { e with warning := some m },
      lookupCheck_add_warning_self_some r k' m e hl, hp, hne⟩
  · exact ⟨k', e, by rw [lookupCheck_add_warning_ne r k k' m hkk]; exact hl, hp, hne⟩

/-- Helper lemma: `add_error` introduces a failing check under its own name. -/
theorem has_failed_away_add_error (r : Report) (a k : String) (m : ErrMsg)
    (hk : k ≠ a) : has_failed_away (add_error r k m) a :=
  ⟨k, ⟨false, some m, none⟩, lookupCheck_add_error_self r k m, rfl, hk⟩

theorem has_failed_away_add_error_preserve (r : Report) (a k : String) (m : ErrMsg)
    (h : has_failed_away r a) : has_failed_away (add_error r k m) a := by
  obtain ⟨k', e, hl, hp, hne⟩ := h
  by_cases hkk : k' = k
  · exact ⟨k, ⟨false, some m, none⟩, lookupCheck_add_error_self r k m, rfl, hkk ▸ hne⟩
  · exact ⟨k', e, by rw [lookupCheck_add_error_ne r k k' m hkk]; exact hl, hp, hne⟩

/-- Helper lemma: `add_check_passed` on the avoided name preserves failures elsewhere. -/
theorem has_failed_away_add_check_passed_avoid (r : Report) (a : String)
    (h : has_failed_away r a) : has_failed_away (add_check_passed r a) a := by
  obtain ⟨k', e, hl, hp, hne⟩ := h
  exact ⟨k', e, by rw [lookupCheck_add_check_passed_ne r a k' hne]; exact hl, hp, hne⟩

/-- A recorded failing check forces `is_verified` to be false. -/
theorem is_verified_false_of_failed (r : Report) (k : String) (e : CheckEntry)
    (hl : lookupCheck r k = some e) (hp : e.passed = false) :
    is_verified r = false := by
  unfold lookupCheck alistGet at hl
  obtain ⟨q, hq, hq2⟩ : ∃ q, r.checks.find? (fun p => p.1 == k) = some q ∧ q.2 = e := by
    cases hf : r.checks.find? (fun p => p.1 == k) with
    | none => simp [hf] at hl
    | some q =>
      simp only [hf, Option.map_some] at hl
      exact ⟨q, rfl, by simpa using hl⟩
  have hmem : q ∈ r.checks := List.mem_of_find?_eq_some hq
  unfold is_verified
  have : r.checks.all (fun p => p.2.passed) = false := by
    cases hall : r.checks.all (fun p => p.2.passed) with
    | false => rfl
    | true =>
      have := (List.all_eq_true.mp hall) q hmem
      rw [hq2, hp] at this
      cases this
  simp [this]

/-- A failing check away from any name makes the report unverified. -/
theorem is_verified_false_of_failed_away (r : Report) (a : String)
    (h : has_failed_away r a) : is_verified r = false := by
  obtain ⟨k, e, hl, hp, _⟩ := h
  exact is_verified_false_of_failed r k e hl hp

/-! ### Folding a list of violations into the report -/

/-- Record a list of (check name, message) violations via `add_error`,
as the reporting loops of the scanners do. -/
def foldErrs (l : List (String × ErrMsg)) (r : Report) : Report :=
  l.foldl (fun acc v => add_error acc v.1 v.2) r

theorem foldl_pres {α β : Type _} (P : β → Prop) (f : β → α → β) (l : List α)
    (hf : ∀ b x, x ∈ l → P b → P (f b x)) (b : β) (h : P b) : P (l.foldl f b) := by
  induction l generalizing b with
  | nil => exact h
  | cons x t ih =>
    exact ih (fun b y hy hb => hf b y (List.mem_cons_of_mem x hy) hb)
      (f b x) (hf b x (List.mem_cons_self x t) h)

theorem foldErrs_lookup_of_not_mem (l : List (String × ErrMsg)) (r : Report)
    (k : String) (h : ∀ v ∈ l, v.1 ≠ k) :
    lookupCheck (foldErrs l r) k = lookupCheck r k := by
  induction l generalizing r with
  | nil => rfl
  | cons v t ih =>
    unfold foldErrs at ih ⊢
    simp only [List.foldl_cons]
    rw [ih (add_error r v.1 v.2) (fun w hw => h w (List.mem_cons_of_mem v hw))]
    exact lookupCheck_add_error_ne r v.1 k v.2
      (fun hkk => h v (List.mem_cons_self v t) hkk.symm)

theorem foldErrs_lookup_failed (l : List (String × ErrMsg)) (r : Report)
    (k : String) (h : ∃ v ∈ l, v.1 = k) :
    ∃ m, lookupCheck (foldErrs l r) k = some ⟨false, some m, none⟩ := by
  induction l generalizing r with
  | nil => simp at h
  | cons v t ih =>
    unfold foldErrs at ih ⊢
    simp only [List.foldl_cons]
    by_cases ht : ∃ w ∈ t, w.1 = k
    · exact ih (add_error r v.1 v.2) ht
    · have hvk : v.1 = k := by
        rcases h with ⟨w, hw, hwk⟩
        rcases List.mem_cons.mp hw with rfl | hw'
        · exact hwk
        · exact absurd ⟨w, hw', hwk⟩ ht
      refine ⟨v.2, ?_⟩
      have hnm : ∀ w ∈ t, w.1 ≠ k := by
        intro w hw hwk
        exact ht ⟨w, hw, hwk⟩
      rw [show (t.foldl (fun acc w => add_error acc w.1 w.2) (add_error r v.1 v.2))
          = foldErrs t (add_error r v.1 v.2) from rfl]
      rw [foldErrs_lookup_of_not_mem t (add_error r v.1 v.2) k hnm, ← hvk]
      exact lookupCheck_add_error_self r v.1 v.2

theorem foldErrs_has_failed_away (l : List (String × ErrMsg)) (r : Report)
    (a : String) (h : ∃ v ∈ l, v.1 ≠ a) :
    has_failed_away (foldErrs l r) a := by
  rcases h with ⟨v, hv, hva⟩
  obtain ⟨m, hm⟩ := foldErrs_lookup_failed l r v.1 ⟨v, hv, rfl⟩
  exact ⟨v.1, ⟨false, some m, none⟩, hm, rfl, hva⟩

theorem foldErrs_preserve_failed_away (l : List (String × ErrMsg)) (r : Report)
    (a : String) (h : has_failed_away r a) :
    has_failed_away (foldErrs l r) a :=
  foldl_pres (fun b => has_failed_away b a) _ l
    (fun b v _ hb => has_failed_away_add_error_preserve b a v.1 v.2 hb) r h

/-! ## JSON values (the result of `json.loads`)

`json.loads` produces nested dicts/lists/strings/numbers/booleans/None;
the embedding carries the parse result directly.  Numbers are modelled as
integers (no property depends on float values). -/

inductive JValue
  | null
  | bool (b : Bool)
  | num (n : Int)
  | str (s : String)
  | arr (xs : List JValue)
  | obj (fields : List (String × JValue))

/-- Python exceptions that can escape the embedded functions. -/
inductive PyErr
  | attributeError
  | typeError
  | decodeError
  deriving DecidableEq, Repr

/-- Python dict `.get` over a parsed JSON object (first binding wins;
`json.loads` never produces duplicate keys). -/
def jGet (fields : List (String × JValue)) (k : String) : Option JValue :=
  (fields.find? (fun p => p.1 == k)).map (·.2)

/-- Python truthiness of a JSON value. -/
def jTruthy : JValue → Bool
  | .null => false
  | .bool b => b
  | .num n => !(n == 0)
  | .str s => !s.data.isEmpty
  | .arr xs => !xs.isEmpty
  | .obj fs => !fs.isEmpty

/-- Python `==` between a string and a JSON value. -/
def jStrEq (needle : String) : JValue → Bool
  | .str t => needle == t
  | _ => false

/-- Python `field in metadata` on a parsed JSON value: key test on dicts,
element test on lists, substring test on strings, TypeError otherwise. -/
def pyIn (field : String) : JValue → Except PyErr Bool
  | .obj fs => .ok (fs.any (fun p => p.1 == field))
  | .arr xs => .ok (xs.any (jStrEq field))
  | .str s => .ok (pyInStr field s)
  | _ => .error .typeError

/-- The `missing_fields` loop shared by both metadata validators. -/
def pyMissingFields : List String → JValue → Except PyErr (List String)
  | [], _ => .ok []
  | f :: rest, v =>
    match pyIn f v with
    | .error e => .error e
    | .ok b =>
      match pyMissingFields rest v with
      | .error e => .error e
      | .ok ms => .ok (if b then ms else f :: ms)

/-- Source `isinstance(v, str)` and non-empty after `strip()` — the shape demanded
of `model_id`, `author` and `model_class`. -/
def nonEmptyStrVal : Option JValue → Bool
  | some (.str s) => !(stripIsEmpty s)
  | _ => false

/-- Source `isinstance(v, str)` — the shape demanded of `version`. -/
def isStrVal : Option JValue → Bool
  | some (.str _) => true
  | _ => false

/-- Source `isinstance(v, dict)` — the shape demanded of the sub-objects. -/
def isObjVal : Option JValue → Bool
  | some (.obj _) => true
  | _ => false

/-! ## Java class-name format check
(src/verifier/java_metadata_validator.py, `_is_valid_java_class_name`)

The Python `isalpha`/`isalnum` tests are modelled by their ASCII behaviour via
`Char.isAlpha`/`Char.isAlphanum`. -/

/-- Source `JavaMetadataValidator._is_valid_java_class_name`. -/
def _is_valid_java_class_name (class_name : String) : Bool :=
  if !(class_name.data.contains '.') then false
  else
    (splitCharList '.' class_name.data).all (fun part =>
      match part with
      | [] => false
      | c :: _ =>
        (c.isAlpha || c == '_') && part.all (fun d => d.isAlphanum || d == '_'))

/-! ## Metadata validators
(src/verifier/java_metadata_validator.py and src/verifier/metadata_validator.py)

Both validators first run the required-fields presence loop (whose `in`
test follows Python semantics on arbitrary JSON values and can raise
`TypeError`), then run hard-coded per-field shape checks via `.get`, which
raises `AttributeError` when the parsed document is not a dict.  The input
is the `json.loads` result (`none` = `JSONDecodeError`). -/

/-- The `model_class` block of `JavaMetadataValidator.validate`: non-empty
string shape first, then the class-name format check in its `else` arm. -/
def java_model_class_check (fields : List (String × JValue)) (r : Report) :
    Bool × Report :=
  if nonEmptyStrVal (jGet fields "model_class") then
    match jGet fields "model_class" with
    | some (.str s) =>
      if !(_is_valid_java_class_name s) then
        (false, add_error r "INVALID_MODEL_CLASS_FORMAT" (.invalidModelClassFormat s))
      else (true, r)
    | _ => (true, r)
  else
    (false, add_error r "INVALID_MODEL_CLASS" .invalidModelClass)

/-- The hard-coded per-field checks of `JavaMetadataValidator.validate`
(reached only when the parsed document is a dict). -/
def java_field_checks (fields : List (String × JValue)) (r : Report) : Bool × Report :=
  let ok1 := nonEmptyStrVal (jGet fields "model_id")
  let r1 := if ok1 then r else add_error r "INVALID_MODEL_ID" .invalidModelId
  let ok2 := isStrVal (jGet fields "version")
  let r2 := if ok2 then r1 else add_error r1 "INVALID_VERSION" .invalidVersion
  let ok3 := nonEmptyStrVal (jGet fields "author")
  let r3 := if ok3 then r2 else add_error r2 "INVALID_AUTHOR" .invalidAuthor
  let step4 := java_model_class_check fields r3
  let passed := ok1 && ok2 && ok3 && step4.1
  (passed, if passed then add_check_passed step4.2 "metadata_validation" else step4.2)

/-- Source `JavaMetadataValidator.validate` on a parsed metadata document. -/
def java_validate (required_fields : List String) (parsed : Option JValue)
    (r : Report) : Except PyErr Bool × Report :=
  match parsed with
  | none => (.ok false, add_error r "INVALID_JSON" .invalidJson)
  | some metadata =>
    match pyMissingFields required_fields metadata with
    | .error e => (.error e, r)
    | .ok missing =>
      if !missing.isEmpty then
        (.ok false, add_error r "MISSING_METADATA_FIELDS" (.missingFields missing))
      else
        match metadata with
        | .obj fields =>
          let res := java_field_checks fields r
          (.ok res.1, res.2)
        | _ => (.error .attributeError, r)

/-- The `expected_inputs` block of `MetadataValidator.validate`. -/
def source_inputs_check (fields : List (String × JValue)) (r : Report) :
    Bool × Report :=
  match jGet fields "expected_inputs" with
  | some (.obj ei) =>
    let missing_inputs := ["stock_prices", "volume", "timestamps"].filter
      (fun inp => !(ei.any (fun p => p.1 == inp)))
    if !missing_inputs.isEmpty then
      (false, add_error r "MISSING_INPUT_FIELDS" (.missingInputFields missing_inputs))
    else (true, r)
  | _ => (false, add_error r "INVALID_EXPECTED_INPUTS" .invalidExpectedInputs)

/-- The `output_format` block of `MetadataValidator.validate`. -/
def source_outputs_check (fields : List (String × JValue)) (r : Report) :
    Bool × Report :=
  match jGet fields "output_format" with
  | some (.obj om) =>
    let missing_outputs := ["signal", "confidence"].filter
      (fun out => !(om.any (fun p => p.1 == out)))
    if !missing_outputs.isEmpty then
      (false, add_error r "MISSING_OUTPUT_FIELDS" (.missingOutputFields missing_outputs))
    else (true, r)
  | _ => (false, add_error r "INVALID_OUTPUT_FORMAT" .invalidOutputFormat)

/-- The hard-coded per-field checks of `MetadataValidator.validate`
(source track; reached only when the parsed document is a dict). -/
def source_field_checks (fields : List (String × JValue)) (r : Report) : Bool × Report :=
  let ok1 := nonEmptyStrVal (jGet fields "model_id")
  let r1 := if ok1 then r else add_error r "INVALID_MODEL_ID" .invalidModelId
  let ok2 := isStrVal (jGet fields "version")
  let r2 := if ok2 then r1 else add_error r1 "INVALID_VERSION" .invalidVersion
  let ok3 := nonEmptyStrVal (jGet fields "author")
  let r3 := if ok3 then r2 else add_error r2 "INVALID_AUTHOR" .invalidAuthor
  let step4 := source_inputs_check fields r3
  let step5 := source_outputs_check fields step4.2
  let passed := ok1 && ok2 && ok3 && step4.1 && step5.1
  (passed, if passed then add_check_passed step5.2 "metadata_validation" else step5.2)

/-- Source `MetadataValidator.validate` on a parsed metadata document. -/
def source_validate (required_fields : List String) (parsed : Option JValue)
    (r : Report) : Except PyErr Bool × Report :=
  match parsed with
  | none => (.ok false, add_error r "INVALID_JSON" .invalidJson)
  | some metadata =>
    match pyMissingFields required_fields metadata with
    | .error e => (.error e, r)
    | .ok missing =>
      if !missing.isEmpty then
        (.ok false, add_error r "MISSING_METADATA_FIELDS" (.missingFields missing))
      else
        match metadata with
        | .obj fields =>
          let res := source_field_checks fields r
          (.ok res.1, res.2)
        | _ => (.error .attributeError, r)

/-- Source `JavaMetadataValidator.extract_model_id`: re-reads the parsed document;
`.get` on a non-dict raises `AttributeError`, which this function does not
catch (it only catches decode and key errors). -/
def extract_model_id (parsed : Option JValue) : Except PyErr (Option JValue) :=
  match parsed with
  | none => .ok none
  | some (.obj fields) => .ok (jGet fields "model_id")
  | some _ => .error .attributeError

/-- Source `JavaMetadataValidator.extract_model_class` (same shape). -/
def extract_model_class (parsed : Option JValue) : Except PyErr (Option JValue) :=
  match parsed with
  | none => .ok none
  | some (.obj fields) => .ok (jGet fields "model_class")
  | some _ => .error .attributeError

/-! ## Source policy scanner (src/verifier/code_scanner.py)

The parsed syntax tree is embedded as the list of nodes produced by
`ast.walk`, one tagged constructor per node kind the scanner inspects
(spec §9 recommends exactly this closed tagged-variant modelling).  A
parse failure (`SyntaxError`) is the `none` case of the scanner input. -/

/-- The callee shape of a call expression (`node.func`). -/
inductive PyFunc
  | name (id : String)
  | attrF (attr : String)
  | otherFunc
  deriving DecidableEq, Repr

/-- The value of an expression statement (`ast.Expr.value`). -/
inductive PyExprVal
  | callV (f : PyFunc)
  | otherVal
  deriving DecidableEq, Repr

/-- One node yielded by `ast.walk`, restricted to the fields the scanner
reads.  `importN` carries the dotted names of one `import` statement;
`importFromN` carries the module of one `from ... import` statement. -/
inductive PyNode
  | importN (names : List String) (lineno : Nat)
  | importFromN (module : Option String) (lineno : Nat)
  | callN (f : PyFunc) (lineno : Nat)
  | exprN (v : PyExprVal) (lineno : Nat)
  | attrN (attr : String) (lineno : Nat)
  | otherN
  deriving DecidableEq, Repr

/-- The scanner's configuration (constructor arguments of `CodeScanner`). -/
structure ScanConfig where
  allowed_imports : List String
  blocked_imports : List String
  blocked_builtins : List String
  deriving DecidableEq, Repr

/-- Classify one imported module name (shared by the `import` and
`from ... import` arms of `_check_imports`); each violation is paired
with the check name it is reported under. -/
def import_violation_of_name (cfg : ScanConfig) (line : Nat) (nm : String) :
    List (String × ErrMsg) :=
  let module_name := baseModule nm
  if cfg.blocked_imports.contains module_name then
    [("DISALLOWED_IMPORT", .disallowedImport module_name line)]
  else if !(cfg.allowed_imports.contains module_name) then
    [("IMPORT_NOT_WHITELISTED", .importNotWhitelisted module_name line)]
  else []

/-- Violations contributed by one walked node in `_check_imports`. -/
def import_violation_of (cfg : ScanConfig) : PyNode → List (String × ErrMsg)
  | .importN names line => names.flatMap (import_violation_of_name cfg line)
  | .importFromN (some m) line => import_violation_of_name cfg line m
  | _ => []

def import_violations (cfg : ScanConfig) (tree : List PyNode) : List (String × ErrMsg) :=
  tree.flatMap (import_violation_of cfg)

/-- Source `CodeScanner._check_imports`. -/
def check_imports (cfg : ScanConfig) (tree : List PyNode) (r : Report) : Bool × Report :=
  let violations := import_violations cfg tree
  (violations.isEmpty, foldErrs violations r)

/-- Violations collected by `CodeScanner._check_builtin_calls`.  The
source branch `elif isinstance(node.func, ast.Name) and node.func.id ==
"__import__"` re-tests the very condition its `if` just failed, so it can
never fire; the translation keeps that branch unreachable. -/
def builtin_violation_of (cfg : ScanConfig) : PyNode → List (String × ErrMsg)
  | .callN (.name id) line =>
    if cfg.blocked_builtins.contains id then
      [("DISALLOWED_BUILTIN", .disallowedBuiltin id line)]
    else []
  | _ => []

def builtin_violations (cfg : ScanConfig) (tree : List PyNode) : List (String × ErrMsg) :=
  tree.flatMap (builtin_violation_of cfg)

/-- Source `CodeScanner._check_builtin_calls`. -/
def check_builtin_calls (cfg : ScanConfig) (tree : List PyNode) (r : Report) :
    Bool × Report :=
  let violations := builtin_violations cfg tree
  (violations.isEmpty, foldErrs violations r)

/-- Violations collected by `CodeScanner._check_file_operations`. -/
def fileop_violation_of : PyNode → List (String × ErrMsg)
  | .callN (.name id) line =>
    if id == "open" then
      [("DISALLOWED_FILE_OPERATION", .disallowedFileOp "open()" line)]
    else []
  | .callN (.attrF a) line =>
    if ["write", "read", "remove", "unlink", "mkdir", "rmdir"].contains a then
      [("DISALLOWED_FILE_OPERATION", .disallowedFileOp ("." ++ a ++ "()") line)]
    else []
  | _ => []

def fileop_violations (tree : List PyNode) : List (String × ErrMsg) :=
  tree.flatMap fileop_violation_of

/-- Source `CodeScanner._check_file_operations`. -/
def check_file_operations (tree : List PyNode) (r : Report) : Bool × Report :=
  let violations := fileop_violations tree
  (violations.isEmpty, foldErrs violations r)

/-- Violations collected by `CodeScanner._check_network_operations`. -/
def network_violation_of : PyNode → List (String × ErrMsg)
  | .callN (.attrF a) line =>
    if ["connect", "send", "recv", "sendall", "request", "get", "post"].contains a then
      [("DISALLOWED_NETWORK_OPERATION", .disallowedNetworkOp ("." ++ a ++ "()") line)]
    else []
  | _ => []

def network_violations (tree : List PyNode) : List (String × ErrMsg) :=
  tree.flatMap network_violation_of

/-- Source `CodeScanner._check_network_operations`. -/
def check_network_operations (tree : List PyNode) (r : Report) : Bool × Report :=
  let violations := network_violations tree
  (violations.isEmpty, foldErrs violations r)

/-- Violations collected by `CodeScanner._check_dangerous_patterns` (two
independent membership tests: execution-primitive statements and
reflective attribute access). -/
def danger_violation_of : PyNode → List (String × ErrMsg)
  | .exprN (.callV (.name id)) line =>
    if ["exec", "eval", "compile"].contains id then
      [("DANGEROUS_PATTERN", .dangerousPattern id line)]
    else []
  | .attrN a line =>
    if ["__globals__", "__builtins__", "__code__", "__import__"].contains a then
      [("DANGEROUS_PATTERN", .dangerousPattern ("." ++ a) line)]
    else []
  | _ => []

def danger_violations (tree : List PyNode) : List (String × ErrMsg) :=
  tree.flatMap danger_violation_of

/-- Source `CodeScanner._check_dangerous_patterns`. -/
def check_dangerous_patterns (tree : List PyNode) (r : Report) : Bool × Report :=
  let violations := danger_violations tree
  (violations.isEmpty, foldErrs violations r)

/-- Source `CodeScanner.scan`: `none` input is the `SyntaxError` branch; otherwise
all five category checks run unconditionally, then one passing
`code_safety_scan` check is recorded only if no category found anything. -/
def scan (cfg : ScanConfig) (parsed : Option (List PyNode)) (r : Report) :
    Bool × Report :=
  match parsed with
  | none => (false, add_error r "SYNTAX_ERROR" .srcParseError)
  | some tree =>
    let s1 := check_imports cfg tree r
    let s2 := check_builtin_calls cfg tree s1.2
    let s3 := check_file_operations tree s2.2
    let s4 := check_network_operations tree s3.2
    let s5 := check_dangerous_patterns tree s4.2
    let violations_found := !s1.1 || !s2.1 || !s3.1 || !s4.1 || !s5.1
    if violations_found then (false, s5.2)
    else (true, add_check_passed s5.2 "code_safety_scan")

/-- A node that is an import of a module whose base is in the blocked set. -/
def is_blocked_import_node (cfg : ScanConfig) : PyNode → Bool
  | .importN names _ => names.any (fun nm => cfg.blocked_imports.contains (baseModule nm))
  | .importFromN (some m) _ => cfg.blocked_imports.contains (baseModule m)
  | _ => false

/-- A node that is a direct call of a blocked builtin. -/
def is_blocked_builtin_call (cfg : ScanConfig) : PyNode → Bool
  | .callN (.name id) _ => cfg.blocked_builtins.contains id
  | _ => false

/-! ## Bytecode policy scanner (src/verifier/java_bytecode_scanner.py)

A compiled class is embedded as its parsed descriptor: the constant-pool
entries the scanner inspects, the declared interface list and the method
table (name, descriptor), exactly the fields read through the jawa
library.  Raw class bytes are the `classData` case of `Bytes` below, with
`none` for bytes jawa fails to parse. -/

/-- One constant-pool entry, restricted to the kinds inspected. -/
inductive JConst
  | classC (name : String)
  | methodRef (cls nm descr : String)
  | fieldRef (cls nm : String)
  | otherC
  deriving DecidableEq, Repr

/-- Parsed class-file descriptor. -/
structure ClassData where
  constants : List JConst
  interfaces : List String
  methods : List (String × String)
  deriving DecidableEq, Repr

/-- Content bytes of one extracted file.  `jsonLike` bytes decode as UTF-8
and carry their `json.loads` result; `classData` bytes are binary class
files (never valid UTF-8, since class files start with 0xCAFEBABE) and
carry their jawa parse result. -/
inductive Bytes
  | jsonLike (parsed : Option JValue)
  | classData (cd : Option ClassData)
  | otherBytes

/-- Source `bytes.decode(utf-8)` followed by `json.loads`: binary content
raises `UnicodeDecodeError`; decodable content yields its parse result. -/
def decode_and_parse : Bytes → Except PyErr (Option JValue)
  | .jsonLike v => .ok v
  | _ => .error .decodeError

/-- Source `jawa.cf.ClassFile(io.BytesIO(b))`, `none` when parsing raises. -/
def class_parse : Bytes → Option ClassData
  | .classData cd => cd
  | _ => none

/-- Scanner configuration (constructor arguments of `JavaBytecodeScanner`). -/
structure SecurityConfig where
  allowed_packages : List String
  blocked_packages : List String
  blocked_classes : List String
  blocked_methods : List String
  deriving DecidableEq, Repr

/-- Violations of `JavaBytecodeScanner._check_class_references`, paired
with the check name each is reported under (exact blocked-class match
first, then blocked-package prefix match). -/
def class_ref_violation_of (sec : SecurityConfig) : JConst → List (String × ErrMsg)
  | .classC name =>
    if sec.blocked_classes.contains name then
      [("DISALLOWED_CLASS_REFERENCE", .disallowedClassRef name)]
    else if sec.blocked_packages.any (fun pkg => pyStartsWith name pkg) then
      [("DISALLOWED_PACKAGE_REFERENCE", .disallowedPackageRef name)]
    else []
  | _ => []

def class_ref_violations (sec : SecurityConfig) (cd : ClassData) :
    List (String × ErrMsg) :=
  cd.constants.flatMap (class_ref_violation_of sec)

/-- Source `JavaBytecodeScanner._check_class_references`. -/
def check_class_references (sec : SecurityConfig) (cd : ClassData) (r : Report) :
    Bool × Report :=
  let violations := class_ref_violations sec cd
  (violations.isEmpty, foldErrs violations r)

/-- Violations of `JavaBytecodeScanner._check_method_calls`
(`"<owner>.<member>"` membership in the blocked-methods set). -/
def method_call_violation_of (sec : SecurityConfig) : JConst → List (String × ErrMsg)
  | .methodRef cls nm _ =>
    let full_method := cls ++ "." ++ nm
    if sec.blocked_methods.contains full_method then
      [("DISALLOWED_METHOD_CALL", .disallowedMethodCall full_method)]
    else []
  | _ => []

def method_call_violations (sec : SecurityConfig) (cd : ClassData) :
    List (String × ErrMsg) :=
  cd.constants.flatMap (method_call_violation_of sec)

/-- Source `JavaBytecodeScanner._check_method_calls`. -/
def check_method_calls (sec : SecurityConfig) (cd : ClassData) (r : Report) :
    Bool × Report :=
  let violations := method_call_violations sec cd
  (violations.isEmpty, foldErrs violations r)

/-- The fixed watch-list of `JavaBytecodeScanner._check_field_access`. -/
def suspicious_fields : List String :=
  ["java/lang/System.out", "java/lang/System.err", "java/lang/System.in"]

/-- Per-constant step of `JavaBytecodeScanner._check_field_access`, which
records warnings only. -/
def field_access_step (acc : Report) : JConst → Report
  | .fieldRef cls nm =>
    let full_field := cls ++ "." ++ nm
    if suspicious_fields.contains full_field then
      add_warning acc "SUSPICIOUS_FIELD_ACCESS" (.suspiciousFieldAccess full_field)
    else acc
  | _ => acc

def check_field_access (cd : ClassData) (r : Report) : Bool × Report :=
  (true, cd.constants.foldl field_access_step r)

/-- Source `JavaBytecodeScanner.scan_class_file`. -/
def scan_class_file (sec : SecurityConfig) (b : Bytes) (class_name : String)
    (r : Report) : Bool × Report :=
  match class_parse b with
  | none => (false, add_error r "INVALID_CLASS_FILE" (.invalidClassFile class_name))
  | some cd =>
    let s1 := check_class_references sec cd r
    let s2 := check_method_calls sec cd s1.2
    let s3 := check_field_access cd s2.2
    let violations_found := !s1.1 || !s2.1 || !s3.1
    if violations_found then (false, s3.2)
    else (true, add_check_passed s3.2 "bytecode_safety_scan")

/-- The pure verdict of `scan_class_file` (independent of the report and
of the class-name string used in messages). -/
def scan_ok (sec : SecurityConfig) (b : Bytes) : Bool :=
  match class_parse b with
  | none => false
  | some cd =>
    (class_ref_violations sec cd).isEmpty && (method_call_violations sec cd).isEmpty

/-- Source `JavaBytecodeScanner.check_implements_interface`: verbatim membership
of the required name in the declared interface list. -/
def check_implements_interface (b : Bytes) (required_interface : String)
    (r : Report) : Bool × Report :=
  match class_parse b with
  | none => (false, add_error r "INVALID_CLASS_FILE" .cannotParseClass)
  | some cd =>
    if cd.interfaces.contains required_interface then
      (true, add_check_passed r "interface_implementation")
    else
      (false, add_error r "MISSING_REQUIRED_INTERFACE"
        (.missingInterface required_interface cd.interfaces))

/-- Source `JavaBytecodeScanner.check_has_method`: the loop returns at the first
method whose name matches; a parse failure returns `False` without
recording anything (the bare `return False` in the source). -/
def check_has_method (b : Bytes) (method_name method_signature : String)
    (r : Report) : Bool × Report :=
  match class_parse b with
  | none => (false, r)
  | some cd =>
    match cd.methods.find? (fun m => m.1 == method_name) with
    | some m =>
      if m.2 == method_signature then
        (true, add_check_passed r "method_signature_validation")
      else
        (false, add_error r "INVALID_METHOD_SIGNATURE"
          (.invalidMethodSignature method_name method_signature m.2))
    | none =>
      (false, add_error r "MISSING_REQUIRED_METHOD" (.missingMethod method_name))

/-! ## Archive extraction
(src/verifier/jar_structure_checker.py and src/verifier/structure_checker.py)

A byte string submitted for extraction is embedded as its parse outcome:
a structurally valid zip archive, a structurally valid tar+gzip archive,
or corrupt bytes (`zipfile`/`tarfile` raise on anything else, and the zip
and tar+gzip on-disk formats are mutually exclusive). -/

/-- One zip member (`zipfile.ZipInfo`). -/
structure ZipEntry where
  filename : String
  isDir : Bool
  content : Bytes

/-- One tar member (`tarfile.TarInfo`). -/
structure TarEntry where
  name : String
  isFile : Bool
  content : Bytes

/-- Raw bytes of a submitted artifact, by parse outcome. -/
inductive ArchiveBytes
  | zipArc (entries : List ZipEntry)
  | tarGzArc (entries : List TarEntry)
  | badArchive

/-- Source `JarStructureChecker.extract_jar`: opens the content as a zip archive
regardless of `filename` (the parameter is accepted and never used);
directory entries are skipped and full paths are preserved. -/
def extract_jar (file_content : ArchiveBytes) (filename : String) :
    Option (List (String × Bytes)) :=
  match file_content with
  | .zipArc entries =>
    some (entries.foldl (fun acc e =>
      if e.isDir then acc else alistUpsert acc e.filename e.content) [])
  | _ => none

/-- Source `StructureChecker.extract_archive`: dispatches on the filename suffix;
a mismatched family raises `TarError`/`BadZipFile`, caught as `none`; an
unsupported suffix returns `None`; members are flattened to basenames. -/
def extract_archive (file_content : ArchiveBytes) (filename : String) :
    Option (List (String × Bytes)) :=
  if pyEndsWith filename ".tar.gz" || pyEndsWith filename ".tgz" then
    match file_content with
    | .tarGzArc entries =>
      some (entries.foldl (fun acc e =>
        if e.isFile then alistUpsert acc (basename e.name) e.content else acc) [])
    | _ => none
  else if pyEndsWith filename ".zip" then
    match file_content with
    | .zipArc entries =>
      some (entries.foldl (fun acc e =>
        if e.isDir then acc else alistUpsert acc (basename e.filename) e.content) [])
    | _ => none
  else none

/-- Source `JarStructureChecker.validate_structure`. -/
def validate_structure (required_files : List String)
    (extracted_files : List (String × Bytes)) (r : Report) : Bool × Report :=
  let present_files := extracted_files.map (·.1)
  let missing_files := required_files.filter
    (fun req => !(present_files.any (fun f => pyEndsWith f req)))
  if !missing_files.isEmpty then
    (false, add_error r "MISSING_REQUIRED_FILES" (.missingRequiredFiles missing_files))
  else
    let class_files := present_files.filter (fun f => pyEndsWith f ".class")
    if class_files.isEmpty then
      (false, add_error r "NO_CLASS_FILES" .noClassFiles)
    else
      (true, add_check_passed r "jar_structure_validation")

/-- Source `com.example.MyModel` → `com/example/MyModel.class` (single-character
`str.replace` is a character map). -/
def classPathOf (model_class_name : String) : List Char :=
  (model_class_name.data.map (fun c => if c == '.' then '/' else c)) ++ ".class".data

/-- Source `JarStructureChecker.find_model_class`. -/
def find_model_class (extracted_files : List (String × Bytes))
    (model_class_name : String) : Option Bytes :=
  (extracted_files.find? (fun p => listLeads (classPathOf model_class_name).reverse
    p.1.data.reverse)).map (·.2)

/-- Source `JarStructureChecker.find_all_class_files`. -/
def find_all_class_files (extracted_files : List (String × Bytes)) :
    List (String × Bytes) :=
  extracted_files.filter (fun p => pyEndsWith p.1 ".class")

/-- Source `JarStructureChecker.check_file_size`. -/
def check_file_size (max_size_bytes : Nat) (file_size : Nat) (r : Report) :
    Bool × Report :=
  if file_size > max_size_bytes then
    (false, add_error r "FILE_TOO_LARGE" (.fileTooLarge file_size max_size_bytes))
  else
    (true, add_check_passed r "file_size_validation")

/-- Source `JarStructureChecker.get_metadata_file`. -/
def get_metadata_file (extracted_files : List (String × Bytes)) : Option Bytes :=
  (extracted_files.find? (fun p => pyEndsWith p.1 "metadata.json")).map (·.2)

/-! ## Lambda pipeline (src/src/lambda_function.py)

The handler is split at the start of step 11 (the helper-class loop):
`pipeline_head` models steps 1–10 with their early `_complete_validation`
returns (`halted`), uncaught exceptions that the outer `except` turns
into a 500 response (`raised`), and the state reaching the helper loop
(`proceed`).  DynamoDB/S3 collaborators are out of scope; the declared
size arrives in the event and the downloaded content is the `content`
argument.  `steps` records which pipeline stages began executing. -/

/-- Source `validation_rules.json` configuration. -/
structure ValidationConfig where
  required_files : List String
  max_file_size_bytes : Nat
  required_metadata_fields : List String
  required_interface : String
  required_method_name : String
  required_method_signature : String

/-- The data of a completed run: HTTP 200 with a report. -/
structure Outcome where
  status : String
  modelId : String
  report : Report
  steps : List String

/-- Fallback model id: `object_key.replace('/', '_').replace('.jar', '')`. -/
def fallbackId (object_key : String) : String :=
  pyReplace (pyReplace object_key "/" "_") ".jar" ""

/-- Source `_complete_validation`: ends the run and builds the response.  The
DynamoDB writes are external persistence whose failure is caught and
logged without affecting the response, so they are not modelled. -/
def complete_validation (r : Report) (model_id : Option String)
    (object_key : String) (status : String) (steps : List String) : Outcome :=
  { status := status
    modelId := match model_id with
      | some s => if s.data.isEmpty then fallbackId object_key else s
      | none => fallbackId object_key
    report := r
    steps := steps }

/-- Result of steps 1–10 of `lambda_handler`. -/
inductive HeadResult
  | halted (o : Outcome)
  | raised (e : PyErr)
  | proceed (report : Report) (model_id model_class : String)
      (files : List (String × Bytes)) (steps : List String)

/-- Steps 1–10 of `lambda_handler` (size gate, download, extraction,
structure, metadata, model-class lookup, interface, method, primary scan). -/
def pipeline_head (sec : SecurityConfig) (val : ValidationConfig)
    (file_size : Nat) (object_key : String) (content : ArchiveBytes) : HeadResult :=
  let r0 : Report := ⟨[]⟩
  match check_file_size val.max_file_size_bytes file_size r0 with
  | (false, r1) => .halted (complete_validation r1 none object_key "INVALID"
      ["size_check"])
  | (true, r1) =>
    match extract_jar content (basename object_key) with
    | none => .halted (complete_validation
        (add_error r1 "INVALID_JAR" .invalidJar) none object_key "INVALID"
        ["size_check", "extract"])
    | some extracted_files =>
      match validate_structure val.required_files extracted_files r1 with
      | (false, r2) => .halted (complete_validation r2 none object_key "INVALID"
          ["size_check", "extract", "structure"])
      | (true, r2) =>
        match get_metadata_file extracted_files with
        | none => .halted (complete_validation
            (add_error r2 "MISSING_METADATA" .missingMetadata) none object_key
            "INVALID" ["size_check", "extract", "structure", "metadata"])
        | some metadata_bytes =>
          match decode_and_parse metadata_bytes with
          | .error e => .raised e
          | .ok parsed_metadata =>
            match java_validate val.required_metadata_fields parsed_metadata r2 with
            | (.error e, _) => .raised e
            | (.ok false, r3) => .halted (complete_validation r3 none object_key
                "INVALID" ["size_check", "extract", "structure", "metadata"])
            | (.ok true, r3) =>
              match extract_model_id parsed_metadata with
              | .error e => .raised e
              | .ok model_id_v =>
                let model_id : String :=
                  match model_id_v with
                  | some (.str s) => if s.data.isEmpty then fallbackId object_key else s
                  | _ => fallbackId object_key
                match extract_model_class parsed_metadata with
                | .error e => .raised e
                | .ok model_class_v =>
                  match model_class_v with
                  | some (.str s) =>
                    if s.data.isEmpty then
                      .halted (complete_validation
                        (add_error r3 "MISSING_MODEL_CLASS" .missingModelClass)
                        (some model_id) object_key "INVALID"
                        ["size_check", "extract", "structure", "metadata"])
                    else
                      match find_model_class extracted_files s with
                      | none => .halted (complete_validation
                          (add_error r3 "MODEL_CLASS_NOT_FOUND" (.modelClassNotFound s))
                          (some model_id) object_key "INVALID"
                          ["size_check", "extract", "structure", "metadata",
                            "find_class"])
                      | some model_class_bytes =>
                        match check_implements_interface model_class_bytes
                            val.required_interface r3 with
                        | (false, r4) => .halted (complete_validation r4
                            (some model_id) object_key "INVALID"
                            ["size_check", "extract", "structure", "metadata",
                              "find_class", "interface"])
                        | (true, r4) =>
                          match check_has_method model_class_bytes
                              val.required_method_name val.required_method_signature
                              r4 with
                          | (false, r5) => .halted (complete_validation r5
                              (some model_id) object_key "INVALID"
                              ["size_check", "extract", "structure", "metadata",
                                "find_class", "interface", "method"])
                          | (true, r5) =>
                            match scan_class_file sec model_class_bytes s r5 with
                            | (false, r6) => .halted (complete_validation r6
                                (some model_id) object_key "INVALID"
                                ["size_check", "extract", "structure", "metadata",
                                  "find_class", "interface", "method", "scan_primary"])
                            | (true, r6) => .proceed r6 model_id s extracted_files
                                ["size_check", "extract", "structure", "metadata",
                                  "find_class", "interface", "method", "scan_primary"]
                  | some v =>
                    if jTruthy v then .raised .attributeError
                    else .halted (complete_validation
                      (add_error r3 "MISSING_MODEL_CLASS" .missingModelClass)
                      (some model_id) object_key "INVALID"
                      ["size_check", "extract", "structure", "metadata"])
                  | none => .halted (complete_validation
                      (add_error r3 "MISSING_MODEL_CLASS" .missingModelClass)
                      (some model_id) object_key "INVALID"
                      ["size_check", "extract", "structure", "metadata"])

/-- The in-loop skip list of step 11. -/
def skip_names : List String := ["State.class", "Order.class", "Model.class"]

/-- Step 11: scan every `.class` member except those whose path contains
the (dotted) model-class name or a skip-list name; a failing helper scan
only logs, the loop never stops, but the scan writes into the report. -/
def scan_helpers (sec : SecurityConfig) (files : List (String × Bytes))
    (model_class : String) (r : Report) : Report :=
  (find_all_class_files files).foldl (fun acc p =>
    if pyInStr model_class p.1 then acc
    else if skip_names.any (fun s => pyInStr s p.1) then acc
    else (scan_class_file sec p.2 p.1 acc).2) r

/-- Source `lambda_handler`, given the parsed event data (declared size and
object key) and the downloaded content.  `Except.error` is the generic
`except Exception` path producing a 500 response with no report. -/
def lambda_handler (sec : SecurityConfig) (val : ValidationConfig)
    (file_size : Nat) (object_key : String) (content : ArchiveBytes) :
    Except PyErr Outcome :=
  match pipeline_head sec val file_size object_key content with
  | .raised e => .error e
  | .halted o => .ok o
  | .proceed r model_id model_class files steps =>
    .ok (complete_validation (scan_helpers sec files model_class r)
      (some model_id) object_key "VALID" (steps ++ ["scan_helpers"]))

/-- Whether the run reaches the helper loop and some non-skipped helper
class fails the bytecode scan. -/
def helper_violation (sec : SecurityConfig) (val : ValidationConfig)
    (file_size : Nat) (object_key : String) (content : ArchiveBytes) : Bool :=
  match pipeline_head sec val file_size object_key content with
  | .proceed _ _ model_class files _ =>
    (find_all_class_files files).any (fun p =>
      !(pyInStr model_class p.1) &&
      !(skip_names.any (fun s => pyInStr s p.1)) &&
      !(scan_ok sec p.2))
  | _ => false

/-- Status projection of a handler result. -/
def handler_status : Except PyErr Outcome → Option String
  | .ok o => some o.status
  | .error _ => none

/-- Verified-flag projection of the report in a handler result. -/
def handler_verified : Except PyErr Outcome → Option Bool
  | .ok o => some (is_verified o.report)
  | .error _ => none

/-! ## Supporting lemmas about the report writes of the scanners -/

theorem has_failed_check_add_error (r : Report) (k : String) (m : ErrMsg) :
    has_failed_check (add_error r k m) = true := by
  have hl := lookupCheck_add_error_self r k m
  unfold lookupCheck alistGet at hl
  obtain ⟨q, hq, hq2⟩ : ∃ q, (add_error r k m).checks.find? (fun p => p.1 == k) = some q ∧
      q.2 = (⟨false, some m, none⟩ : CheckEntry) := by
    cases hf : (add_error r k m).checks.find? (fun p => p.1 == k) with
    | none => simp [hf] at hl
    | some q =>
      simp only [hf, Option.map_some] at hl
      exact ⟨q, rfl, by simpa using hl⟩
  refine List.any_eq_true.mpr ⟨q, List.mem_of_find?_eq_some hq, ?_⟩
  rw [hq2]
  rfl

theorem has_failed_check_if_pres (r : Report) (b : Bool) (k : String) (m : ErrMsg)
    (h : has_failed_check r = true) :
    has_failed_check (if b then r else add_error r k m) = true := by
  cases b with
  | true => simpa using h
  | false =>
    simp only [Bool.false_eq_true, if_false]
    unfold has_failed_check at h ⊢
    unfold add_error add_check_failed alistUpsert
    by_cases ha : (r.checks.any fun p => p.1 == k) = true
    · rw [if_pos ha]
      obtain ⟨q, hq, hqp⟩ := List.any_eq_true.mp h
      by_cases hqk : (q.1 == k) = true
      · refine List.any_eq_true.mpr ⟨(k, ⟨false, some m, none⟩), ?_, rfl⟩
        refine List.mem_map.mpr ⟨q, hq, ?_⟩
        rw [if_pos hqk]
      · refine List.any_eq_true.mpr ⟨q, ?_, hqp⟩
        refine List.mem_map.mpr ⟨q, hq, ?_⟩
        rw [if_neg hqk]
    · rw [if_neg ha]
      obtain ⟨q, hq, hqp⟩ := List.any_eq_true.mp h
      exact List.any_eq_true.mpr ⟨q, List.mem_append_left _ hq, hqp⟩

theorem has_failed_check_if_intro (r : Report) (b : Bool) (k : String) (m : ErrMsg)
    (h : b = false) :
    has_failed_check (if b then r else add_error r k m) = true := by
  rw [h]
  simpa using has_failed_check_add_error r k m

theorem has_failed_check_of_failed_away (r : Report) (a : String)
    (h : has_failed_away r a) : has_failed_check r = true := by
  obtain ⟨k, e, hl, hp, _⟩ := h
  unfold lookupCheck alistGet at hl
  obtain ⟨q, hq, hq2⟩ : ∃ q, r.checks.find? (fun p => p.1 == k) = some q ∧ q.2 = e := by
    cases hf : r.checks.find? (fun p => p.1 == k) with
    | none => simp [hf] at hl
    | some q =>
      simp only [hf, Option.map_some] at hl
      exact ⟨q, rfl, by simpa using hl⟩
  refine List.any_eq_true.mpr ⟨q, List.mem_of_find?_eq_some hq, ?_⟩
  rw [hq2, hp]
  rfl


/-! ### Violation key characterisations -/

theorem class_ref_violation_keys (sec : SecurityConfig) (cd : ClassData) :
    ∀ v ∈ class_ref_violations sec cd,
      v.1 = "DISALLOWED_CLASS_REFERENCE" ∨ v.1 = "DISALLOWED_PACKAGE_REFERENCE" := by
  intro v hv
  unfold class_ref_violations at hv
  rcases List.mem_flatMap.mp hv with ⟨c, _, hvc⟩
  cases c with
  | classC name =>
    simp only [class_ref_violation_of] at hvc
    by_cases hb : (sec.blocked_classes.contains name) = true
    · rw [if_pos hb, List.mem_singleton] at hvc
      rw [hvc]
      exact Or.inl rfl
    · rw [if_neg hb] at hvc
      by_cases hp : (sec.blocked_packages.any fun pkg => pyStartsWith name pkg) = true
      · rw [if_pos hp, List.mem_singleton] at hvc
        rw [hvc]
        exact Or.inr rfl
      · rw [if_neg hp] at hvc
        simp at hvc
  | methodRef cls nm descr => simp [class_ref_violation_of] at hvc
  | fieldRef cls nm => simp [class_ref_violation_of] at hvc
  | otherC => simp [class_ref_violation_of] at hvc

theorem method_call_violation_keys (sec : SecurityConfig) (cd : ClassData) :
    ∀ v ∈ method_call_violations sec cd, v.1 = "DISALLOWED_METHOD_CALL" := by
  intro v hv
  unfold method_call_violations at hv
  rcases List.mem_flatMap.mp hv with ⟨c, _, hvc⟩
  cases c with
  | methodRef cls nm descr =>
    simp only [method_call_violation_of] at hvc
    by_cases hb : (sec.blocked_methods.contains (cls ++ "." ++ nm)) = true
    · rw [if_pos hb, List.mem_singleton] at hvc
      rw [hvc]
    · rw [if_neg hb] at hvc
      simp at hvc
  | classC name => simp [method_call_violation_of] at hvc
  | fieldRef cls nm => simp [method_call_violation_of] at hvc
  | otherC => simp [method_call_violation_of] at hvc

theorem import_violation_of_name_keys (cfg : ScanConfig) (line : Nat) (nm : String) :
    ∀ v ∈ import_violation_of_name cfg line nm,
      v.1 = "DISALLOWED_IMPORT" ∨ v.1 = "IMPORT_NOT_WHITELISTED" := by
  intro v hv
  unfold import_violation_of_name at hv
  by_cases hb : (cfg.blocked_imports.contains (baseModule nm)) = true
  · rw [if_pos hb, List.mem_singleton] at hv
    rw [hv]
    exact Or.inl rfl
  · rw [if_neg hb] at hv
    by_cases hw : (!(cfg.allowed_imports.contains (baseModule nm))) = true
    · rw [if_pos hw, List.mem_singleton] at hv
      rw [hv]
      exact Or.inr rfl
    · rw [if_neg hw] at hv
      simp at hv

theorem import_violation_keys (cfg : ScanConfig) (tree : List PyNode) :
    ∀ v ∈ import_violations cfg tree,
      v.1 = "DISALLOWED_IMPORT" ∨ v.1 = "IMPORT_NOT_WHITELISTED" := by
  intro v hv
  unfold import_violations at hv
  rcases List.mem_flatMap.mp hv with ⟨n, _, hvn⟩
  cases n with
  | importN names line =>
    simp only [import_violation_of] at hvn
    rcases List.mem_flatMap.mp hvn with ⟨nm, _, hvm⟩
    exact import_violation_of_name_keys cfg line nm v hvm
  | importFromN module line =>
    cases module with
    | none => simp [import_violation_of] at hvn
    | some m =>
      simp only [import_violation_of] at hvn
      exact import_violation_of_name_keys cfg line m v hvn
  | callN f line => simp [import_violation_of] at hvn
  | exprN v' line => simp [import_violation_of] at hvn
  | attrN a line => simp [import_violation_of] at hvn
  | otherN => simp [import_violation_of] at hvn

theorem builtin_violation_keys (cfg : ScanConfig) (tree : List PyNode) :
    ∀ v ∈ builtin_violations cfg tree, v.1 = "DISALLOWED_BUILTIN" := by
  intro v hv
  unfold builtin_violations at hv
  rcases List.mem_flatMap.mp hv with ⟨n, _, hvn⟩
  cases n with
  | callN f line =>
    cases f with
    | name id =>
      simp only [builtin_violation_of] at hvn
      by_cases hb : (cfg.blocked_builtins.contains id) = true
      · rw [if_pos hb, List.mem_singleton] at hvn
        rw [hvn]
      · rw [if_neg hb] at hvn
        simp at hvn
    | attrF a => simp [builtin_violation_of] at hvn
    | otherFunc => simp [builtin_violation_of] at hvn
  | importN names line => simp [builtin_violation_of] at hvn
  | importFromN module line => simp [builtin_violation_of] at hvn
  | exprN v' line => simp [builtin_violation_of] at hvn
  | attrN a line => simp [builtin_violation_of] at hvn
  | otherN => simp [builtin_violation_of] at hvn

theorem fileop_violation_keys (tree : List PyNode) :
    ∀ v ∈ fileop_violations tree, v.1 = "DISALLOWED_FILE_OPERATION" := by
  intro v hv
  unfold fileop_violations at hv
  rcases List.mem_flatMap.mp hv with ⟨n, _, hvn⟩
  cases n with
  | callN f line =>
    cases f with
    | name id =>
      simp only [fileop_violation_of] at hvn
      by_cases hb : (id == "open") = true
      · rw [if_pos hb, List.mem_singleton] at hvn
        rw [hvn]
      · rw [if_neg hb] at hvn
        simp at hvn
    | attrF a =>
      simp only [fileop_violation_of] at hvn
      by_cases hb :
          ((["write", "read", "remove", "unlink", "mkdir", "rmdir"]).contains a) = true
      · rw [if_pos hb, List.mem_singleton] at hvn
        rw [hvn]
      · rw [if_neg hb] at hvn
        simp at hvn
    | otherFunc => simp [fileop_violation_of] at hvn
  | importN names line => simp [fileop_violation_of] at hvn
  | importFromN module line => simp [fileop_violation_of] at hvn
  | exprN v' line => simp [fileop_violation_of] at hvn
  | attrN a line => simp [fileop_violation_of] at hvn
  | otherN => simp [fileop_violation_of] at hvn

theorem network_violation_keys (tree : List PyNode) :
    ∀ v ∈ network_violations tree, v.1 = "DISALLOWED_NETWORK_OPERATION" := by
  intro v hv
  unfold network_violations at hv
  rcases List.mem_flatMap.mp hv with ⟨n, _, hvn⟩
  cases n with
  | callN f line =>
    cases f with
    | attrF a =>
      simp only [network_violation_of] at hvn
      by_cases hb :
          ((["connect", "send", "recv", "sendall", "request", "get", "post"]).contains a)
            = true
      · rw [if_pos hb, List.mem_singleton] at hvn
        rw [hvn]
      · rw [if_neg hb] at hvn
        simp at hvn
    | name id => simp [network_violation_of] at hvn
    | otherFunc => simp [network_violation_of] at hvn
  | importN names line => simp [network_violation_of] at hvn
  | importFromN module line => simp [network_violation_of] at hvn
  | exprN v' line => simp [network_violation_of] at hvn
  | attrN a line => simp [network_violation_of] at hvn
  | otherN => simp [network_violation_of] at hvn

theorem danger_violation_keys (tree : List PyNode) :
    ∀ v ∈ danger_violations tree, v.1 = "DANGEROUS_PATTERN" := by
  intro v hv
  unfold danger_violations at hv
  rcases List.mem_flatMap.mp hv with ⟨n, _, hvn⟩
  cases n with
  | exprN v' line =>
    cases v' with
    | callV f =>
      cases f with
      | name id =>
        simp only [danger_violation_of] at hvn
        by_cases hb : ((["exec", "eval", "compile"]).contains id) = true
        · rw [if_pos hb, List.mem_singleton] at hvn
          rw [hvn]
        · rw [if_neg hb] at hvn
          simp at hvn
      | attrF a => simp [danger_violation_of] at hvn
      | otherFunc => simp [danger_violation_of] at hvn
    | otherVal => simp [danger_violation_of] at hvn
  | attrN a line =>
    simp only [danger_violation_of] at hvn
    by_cases hb :
        ((["__globals__", "__builtins__", "__code__", "__import__"]).contains a) = true
    · rw [if_pos hb, List.mem_singleton] at hvn
      rw [hvn]
    · rw [if_neg hb] at hvn
      simp at hvn
  | importN names line => simp [danger_violation_of] at hvn
  | importFromN module line => simp [danger_violation_of] at hvn
  | callN f line => simp [danger_violation_of] at hvn
  | otherN => simp [danger_violation_of] at hvn

/-! ### Bytecode scan and helper-loop lemmas -/

theorem field_access_step_pres (a : String) (r : Report) (c : JConst)
    (h : has_failed_away r a) : has_failed_away (field_access_step r c) a := by
  cases c with
  | fieldRef cls nm =>
    simp only [field_access_step]
    by_cases hs : (suspicious_fields.contains (cls ++ "." ++ nm)) = true
    · rw [if_pos hs]
      exact has_failed_away_add_warning_preserve r a _ _ h
    · rw [if_neg hs]
      exact h
  | classC name => exact h
  | methodRef cls nm descr => exact h
  | otherC => exact h

theorem check_field_access_pres (a : String) (cd : ClassData) (r : Report)
    (h : has_failed_away r a) : has_failed_away (check_field_access cd r).2 a := by
  unfold check_field_access
  exact foldl_pres (fun b => has_failed_away b a) _ cd.constants
    (fun b c _ hb => field_access_step_pres a b c hb) r h

/-- A class that fails the bytecode scan leaves a failing check (never the
`bytecode_safety_scan` name) in the report. -/
theorem scan_class_file_snd_failed_away (sec : SecurityConfig) (b : Bytes)
    (n : String) (r : Report) (h : scan_ok sec b = false) :
    has_failed_away (scan_class_file sec b n r).2 "bytecode_safety_scan" := by
  unfold scan_ok at h
  unfold scan_class_file
  cases hcp : class_parse b with
  | none =>
    simp only [hcp]
    exact has_failed_away_add_error r "bytecode_safety_scan" "INVALID_CLASS_FILE" _
      (by decide)
  | some cd =>
    simp only [hcp] at h
    simp only [hcp]
    have hP : has_failed_away
        (check_field_access cd (check_method_calls sec cd
          (check_class_references sec cd r).2).2).2 "bytecode_safety_scan" := by
      cases hre : (class_ref_violations sec cd).isEmpty with
      | false =>
        have h1 : has_failed_away (check_class_references sec cd r).2
            "bytecode_safety_scan" := by
          show has_failed_away (foldErrs (class_ref_violations sec cd) r) _
          cases hl : class_ref_violations sec cd with
          | nil => rw [hl] at hre; simp at hre
          | cons v t =>
            refine foldErrs_has_failed_away _ _ _ ⟨v, hl ▸ List.mem_cons_self v t, ?_⟩
            have hkey := class_ref_violation_keys sec cd v (hl ▸ List.mem_cons_self v t)
            rcases hkey with hk | hk <;> rw [hk] <;> decide
        have h2 := foldErrs_preserve_failed_away (method_call_violations sec cd)
          (check_class_references sec cd r).2 "bytecode_safety_scan" h1
        exact check_field_access_pres _ cd _ h2
      | true =>
        rw [hre, Bool.true_and] at h
        have h2 : has_failed_away (check_method_calls sec cd
            (check_class_references sec cd r).2).2 "bytecode_safety_scan" := by
          show has_failed_away (foldErrs (method_call_violations sec cd) _) _
          cases hl : method_call_violations sec cd with
          | nil => rw [hl] at h; simp at h
          | cons v t =>
            refine foldErrs_has_failed_away _ _ _ ⟨v, hl ▸ List.mem_cons_self v t, ?_⟩
            have hkey := method_call_violation_keys sec cd v (hl ▸ List.mem_cons_self v t)
            rw [hkey]
            decide
        exact check_field_access_pres _ cd _ h2
    split
    · exact hP
    · exact has_failed_away_add_check_passed_avoid _ _ hP

/-- Scanning any class preserves a failing check recorded away from the
`bytecode_safety_scan` name. -/
theorem scan_class_file_snd_pres (sec : SecurityConfig) (b : Bytes) (n : String)
    (r : Report) (h : has_failed_away r "bytecode_safety_scan") :
    has_failed_away (scan_class_file sec b n r).2 "bytecode_safety_scan" := by
  unfold scan_class_file
  cases hcp : class_parse b with
  | none =>
    simp only [hcp]
    exact has_failed_away_add_error_preserve r _ _ _ h
  | some cd =>
    simp only [hcp]
    have h1 := foldErrs_preserve_failed_away (class_ref_violations sec cd) r
      "bytecode_safety_scan" h
    have h2 := foldErrs_preserve_failed_away (method_call_violations sec cd)
      (check_class_references sec cd r).2 "bytecode_safety_scan" h1
    have hP := check_field_access_pres "bytecode_safety_scan" cd _ h2
    split
    · exact hP
    · exact has_failed_away_add_check_passed_avoid _ _ hP

/-- One step of the helper loop preserves a recorded failure. -/
theorem helper_step_pres (sec : SecurityConfig) (mc : String) (r : Report)
    (p : String × Bytes) (h : has_failed_away r "bytecode_safety_scan") :
    has_failed_away
      (if pyInStr mc p.1 then r
       else if skip_names.any (fun s => pyInStr s p.1) then r
       else (scan_class_file sec p.2 p.1 r).2) "bytecode_safety_scan" := by
  by_cases h1 : (pyInStr mc p.1) = true
  · rw [if_pos h1]; exact h
  · rw [if_neg h1]
    by_cases h2 : (skip_names.any fun s => pyInStr s p.1) = true
    · rw [if_pos h2]; exact h
    · rw [if_neg h2]
      exact scan_class_file_snd_pres sec p.2 p.1 r h

theorem helper_fold_failed_away (sec : SecurityConfig) (mc : String)
    (l : List (String × Bytes)) (r : Report)
    (h : ∃ p ∈ l, (!(pyInStr mc p.1) &&
        !(skip_names.any (fun s => pyInStr s p.1)) && !(scan_ok sec p.2)) = true) :
    has_failed_away
      (l.foldl (fun acc p =>
        if pyInStr mc p.1 then acc
        else if skip_names.any (fun s => pyInStr s p.1) then acc
        else (scan_class_file sec p.2 p.1 acc).2) r) "bytecode_safety_scan" := by
  induction l generalizing r with
  | nil => simp at h
  | cons q t ih =>
    simp only [List.foldl_cons]
    by_cases ht : ∃ p ∈ t, (!(pyInStr mc p.1) &&
        !(skip_names.any (fun s => pyInStr s p.1)) && !(scan_ok sec p.2)) = true
    · exact ih _ ht
    · have hq : (!(pyInStr mc q.1) &&
          !(skip_names.any (fun s => pyInStr s q.1)) && !(scan_ok sec q.2)) = true := by
        rcases h with ⟨p, hp, hc⟩
        rcases List.mem_cons.mp hp with rfl | hp'
        · exact hc
        · exact absurd ⟨p, hp', hc⟩ ht
      simp only [Bool.and_eq_true] at hq
      rcases hq with ⟨⟨hb1, hb2⟩, hb3⟩
      have hb1' : pyInStr mc q.1 = false := by simpa using hb1
      have hb2' : (skip_names.any fun s => pyInStr s q.1) = false := by simpa using hb2
      have hb3' : scan_ok sec q.2 = false := by simpa using hb3
      rw [if_neg (by simp [hb1']), if_neg (by simp [hb2'])]
      exact foldl_pres (fun b => has_failed_away b "bytecode_safety_scan") _ t
        (fun b p _ hb => helper_step_pres sec mc b p hb)
        _ (scan_class_file_snd_failed_away sec q.2 q.1 r hb3')

/-- If the helper loop meets a non-skipped failing class, the resulting
report is not verified. -/
theorem scan_helpers_not_verified (sec : SecurityConfig)
    (files : List (String × Bytes)) (mc : String) (r : Report)
    (h : (find_all_class_files files).any (fun p =>
      !(pyInStr mc p.1) && !(skip_names.any (fun s => pyInStr s p.1)) &&
      !(scan_ok sec p.2)) = true) :
    is_verified (scan_helpers sec files mc r) = false := by
  unfold scan_helpers
  refine is_verified_false_of_failed_away _ "bytecode_safety_scan" ?_
  obtain ⟨p, hp, hc⟩ := List.any_eq_true.mp h
  exact helper_fold_failed_away sec mc (find_all_class_files files) r ⟨p, hp, hc⟩

/-! ## Claim theorems -/

/-- C2: for every report state, `is_verified()` returns true iff the set of
recorded checks is non-empty and every recorded check has `passed = true`;
in particular a report with zero recorded checks is not verified. -/
theorem C2_is_verified_iff :
    (∀ r : Report, is_verified r = true ↔
      r.checks ≠ [] ∧ ∀ p ∈ r.checks, p.2.passed = true) ∧
    is_verified ⟨[]⟩ = false := by
  constructor
  · intro r
    unfold is_verified
    rw [Bool.and_eq_true, List.all_eq_true]
    constructor
    · rintro ⟨h1, h2⟩
      refine ⟨?_, h2⟩
      intro hnil
      rw [hnil] at h1
      simp at h1
    · rintro ⟨h1, h2⟩
      refine ⟨?_, h2⟩
      cases hc : r.checks with
      | nil => exact absurd hc h1
      | cons a t => simp [hc]
  · rfl

/-- C2 witness: a concrete singleton passing report is verified, via the
equivalence. -/
theorem C2_is_verified_iff_witness :
    is_verified ⟨[("file_size_validation", ⟨true, none, none⟩)]⟩ = true :=
  (C2_is_verified_iff.1 ⟨[("file_size_validation", ⟨true, none, none⟩)]⟩).mpr
    ⟨by decide, by decide⟩

/-- Spec-side reading of §4.3: a dotted qualified identifier — the string
contains a dot, and every dot-separated segment is non-empty, begins with
a letter or underscore, and contains only alphanumerics or underscores. -/
def DottedQualifiedIdentifier (s : String) : Prop :=
  '.' ∈ s.data ∧
  ∀ seg ∈ splitCharList '.' s.data,
    seg ≠ [] ∧
    (∀ c cs, seg = c :: cs → (c.isAlpha = true ∨ c = '_')) ∧
    (∀ c ∈ seg, c.isAlphanum = true ∨ c = '_')

/-- C8: the bytecode-track class-reference format check accepts a string
iff it is a dotted qualified identifier; the check reads nothing but the
string itself. -/
theorem C8_class_name_format (s : String) :
    _is_valid_java_class_name s = true ↔ DottedQualifiedIdentifier s := by
  unfold _is_valid_java_class_name DottedQualifiedIdentifier
  by_cases hc : '.' ∈ s.data
  · have hcc : s.data.contains '.' = true := List.elem_iff.mpr hc
    rw [if_neg (by simpa using hc), List.all_eq_true]
    constructor
    · intro h
      refine ⟨hc, ?_⟩
      intro seg hseg
      have hall := h seg hseg
      cases seg with
      | nil => simp at hall
      | cons c cs =>
        have hall' : ((c.isAlpha || c == '_') &&
            (c :: cs).all (fun d => d.isAlphanum || d == '_')) = true := hall
        simp only [Bool.and_eq_true, Bool.or_eq_true, List.all_eq_true,
          beq_iff_eq] at hall'
        obtain ⟨h1, h2⟩ := hall'
        exact ⟨by simp, fun c' cs' heq => by cases heq; exact h1, h2⟩
    · rintro ⟨-, hsegs⟩
      intro seg hseg
      obtain ⟨hne, hhead, helem⟩ := hsegs seg hseg
      cases seg with
      | nil => exact absurd rfl hne
      | cons c cs =>
        show ((c.isAlpha || c == '_') &&
          (c :: cs).all (fun d => d.isAlphanum || d == '_')) = true
        simp only [Bool.and_eq_true, Bool.or_eq_true, List.all_eq_true, beq_iff_eq]
        exact ⟨hhead c cs rfl, helem⟩
  · have hcc : s.data.contains '.' = false := by
      cases hx : s.data.contains '.' with
      | false => rfl
      | true => exact absurd (List.elem_iff.mp hx) hc
    rw [if_pos (by simpa using hc)]
    constructor
    · intro h
      cases h
    · rintro ⟨hdot, -⟩
      exact absurd hdot hc

/-- C8 witness: the equivalence applied to `com.example.MyModel`. -/
theorem C8_class_name_format_witness :
    _is_valid_java_class_name "com.example.MyModel" = true ∧
    DottedQualifiedIdentifier "com.example.MyModel" :=
  ⟨by decide, (C8_class_name_format "com.example.MyModel").mp (by decide)⟩

theorem add_warning_all_passed (r : Report) (k : String) (m : WarnMsg)
    (h : ∀ p ∈ r.checks, p.2.passed = true) :
    ∀ p ∈ (add_warning r k m).checks, p.2.passed = true := by
  intro p hp
  unfold add_warning at hp
  by_cases ha : (r.checks.any fun q => q.1 == k) = true
  · rw [if_pos ha] at hp
    rcases List.mem_map.mp hp with ⟨q, hq, heq⟩
    by_cases hqk : (q.1 == k) = true
    · rw [if_pos hqk] at heq
      rw [← heq]
      exact h q hq
    · rw [if_neg hqk] at heq
      rw [← heq]
      exact h q hq
  · rw [if_neg ha] at hp
    rcases List.mem_append.mp hp with hp' | hp'
    · exact h p hp'
    · rcases List.mem_singleton.mp hp' with rfl
      rfl

theorem add_warning_nonempty (r : Report) (k : String) (m : WarnMsg) :
    (add_warning r k m).checks ≠ [] := by
  unfold add_warning
  by_cases ha : (r.checks.any fun q => q.1 == k) = true
  · rw [if_pos ha]
    obtain ⟨q, hq, -⟩ := List.any_eq_true.mp ha
    cases hrc : r.checks with
    | nil =>
      rw [hrc] at hq
      simp at hq
    | cons a t => simp
  · rw [if_neg ha]
    simp

/-- C10: `add_warning` on an existing check name only sets the warning
field (passed flag and error untouched, other names untouched); on a fresh
name it creates a passing entry; consequently a report built solely from
warnings is verified. -/
theorem C10_add_warning_semantics :
    (∀ (r : Report) (k : String) (m : WarnMsg) (e : CheckEntry),
      lookupCheck r k = some e →
        lookupCheck (add_warning r k m) k = some { e with warning := some m }) ∧
    (∀ (r : Report) (k k' : String) (m : WarnMsg), k' ≠ k →
      lookupCheck (add_warning r k m) k' = lookupCheck r k') ∧
    (∀ (r : Report) (k : String) (m : WarnMsg),
      lookupCheck r k = none →
        lookupCheck (add_warning r k m) k = some ⟨true, none, some m⟩) ∧
    (∀ l : List (String × WarnMsg), l ≠ [] →
      is_verified (l.foldl (fun r p => add_warning r p.1 p.2) ⟨[]⟩) = true) := by
  refine ⟨lookupCheck_add_warning_self_some, lookupCheck_add_warning_ne,
    lookupCheck_add_warning_self_none, ?_⟩
  intro l hl
  cases l with
  | nil => exact absurd rfl hl
  | cons q t =>
    simp only [List.foldl_cons]
    have hP := foldl_pres
      (fun b : Report => (∀ p ∈ b.checks, p.2.passed = true) ∧ b.checks ≠ [])
      (fun r p => add_warning r p.1 p.2) t
      (fun b x _ hb => ⟨add_warning_all_passed b x.1 x.2 hb.1,
        add_warning_nonempty b x.1 x.2⟩)
      (add_warning ⟨[]⟩ q.1 q.2)
      ⟨add_warning_all_passed ⟨[]⟩ q.1 q.2 (by simp), add_warning_nonempty ⟨[]⟩ q.1 q.2⟩
    set res := t.foldl (fun r p => add_warning r p.1 p.2) (add_warning ⟨[]⟩ q.1 q.2)
    unfold is_verified
    have h1 : res.checks.isEmpty = false := by
      cases hc : res.checks with
      | nil => exact absurd hc hP.2
      | cons a u => rfl
    rw [h1, List.all_eq_true.mpr hP.1]
    rfl

/-- C10 witness: the four parts applied at concrete inputs — warning on an
existing failed check keeps it failed and its error intact; a fresh
warning entry passes; a warnings-only report is verified. -/
theorem C10_add_warning_semantics_witness :
    lookupCheck (add_warning ⟨[("X", ⟨false, some .invalidJar, none⟩)]⟩ "X"
        (.suspiciousFieldAccess "java/lang/System.out")) "X"
      = some ⟨false, some .invalidJar,
          some (.suspiciousFieldAccess "java/lang/System.out")⟩ ∧
    lookupCheck (add_warning ⟨[("X", ⟨false, some .invalidJar, none⟩)]⟩ "Y"
        (.suspiciousFieldAccess "java/lang/System.err")) "X"
      = some ⟨false, some .invalidJar, none⟩ ∧
    lookupCheck (add_warning ⟨[]⟩ "Z"
        (.suspiciousFieldAccess "java/lang/System.in")) "Z"
      = some ⟨true, none, some (.suspiciousFieldAccess "java/lang/System.in")⟩ ∧
    is_verified ([("W", WarnMsg.suspiciousFieldAccess "java/lang/System.out")].foldl
      (fun r p => add_warning r p.1 p.2) ⟨[]⟩) = true :=
  ⟨C10_add_warning_semantics.1 ⟨[("X", ⟨false, some .invalidJar, none⟩)]⟩ "X"
      (.suspiciousFieldAccess "java/lang/System.out")
      ⟨false, some .invalidJar, none⟩ (by rfl),
    C10_add_warning_semantics.2.1 ⟨[("X", ⟨false, some .invalidJar, none⟩)]⟩ "Y" "X"
      (.suspiciousFieldAccess "java/lang/System.err") (by decide),
    C10_add_warning_semantics.2.2.1 ⟨[]⟩ "Z"
      (.suspiciousFieldAccess "java/lang/System.in") (by rfl),
    C10_add_warning_semantics.2.2.2 _ (by decide)⟩

theorem import_violation_mem (cfg : ScanConfig) (tree : List PyNode)
    (h : ∃ n ∈ tree, is_blocked_import_node cfg n = true) :
    ∃ v ∈ import_violations cfg tree, v.1 = "DISALLOWED_IMPORT" := by
  obtain ⟨n, hn, hbn⟩ := h
  cases n with
  | importN names line =>
    simp only [is_blocked_import_node] at hbn
    obtain ⟨nm, hnm, hc⟩ := List.any_eq_true.mp hbn
    refine ⟨("DISALLOWED_IMPORT", .disallowedImport (baseModule nm) line), ?_, rfl⟩
    unfold import_violations
    refine List.mem_flatMap.mpr ⟨.importN names line, hn, ?_⟩
    simp only [import_violation_of]
    refine List.mem_flatMap.mpr ⟨nm, hnm, ?_⟩
    unfold import_violation_of_name
    rw [if_pos hc]
    exact List.mem_singleton.mpr rfl
  | importFromN module line =>
    cases module with
    | none => simp [is_blocked_import_node] at hbn
    | some m =>
      simp only [is_blocked_import_node] at hbn
      refine ⟨("DISALLOWED_IMPORT", .disallowedImport (baseModule m) line), ?_, rfl⟩
      unfold import_violations
      refine List.mem_flatMap.mpr ⟨.importFromN (some m) line, hn, ?_⟩
      simp only [import_violation_of]
      unfold import_violation_of_name
      rw [if_pos hbn]
      exact List.mem_singleton.mpr rfl
  | callN f line => simp [is_blocked_import_node] at hbn
  | exprN v line => simp [is_blocked_import_node] at hbn
  | attrN a line => simp [is_blocked_import_node] at hbn
  | otherN => simp [is_blocked_import_node] at hbn

theorem builtin_violation_mem (cfg : ScanConfig) (tree : List PyNode)
    (h : ∃ n ∈ tree, is_blocked_builtin_call cfg n = true) :
    ∃ v ∈ builtin_violations cfg tree, v.1 = "DISALLOWED_BUILTIN" := by
  obtain ⟨n, hn, hbn⟩ := h
  cases n with
  | callN f line =>
    cases f with
    | name id =>
      simp only [is_blocked_builtin_call] at hbn
      refine ⟨("DISALLOWED_BUILTIN", .disallowedBuiltin id line), ?_, rfl⟩
      unfold builtin_violations
      refine List.mem_flatMap.mpr ⟨.callN (.name id) line, hn, ?_⟩
      simp only [builtin_violation_of]
      rw [if_pos hbn]
      exact List.mem_singleton.mpr rfl
    | attrF a => simp [is_blocked_builtin_call] at hbn
    | otherFunc => simp [is_blocked_builtin_call] at hbn
  | importN names line => simp [is_blocked_builtin_call] at hbn
  | importFromN module line => simp [is_blocked_builtin_call] at hbn
  | exprN v line => simp [is_blocked_builtin_call] at hbn
  | attrN a line => simp [is_blocked_builtin_call] at hbn
  | otherN => simp [is_blocked_builtin_call] at hbn

/-- C3: a parsed submission with at least one blocked import and at least
one blocked builtin call makes a single `scan()` run record failed checks
for BOTH categories (no early exit after the first category) and return
false. -/
theorem C3_both_categories (cfg : ScanConfig) (tree : List PyNode) (r : Report)
    (hImp : ∃ n ∈ tree, is_blocked_import_node cfg n = true)
    (hBui : ∃ n ∈ tree, is_blocked_builtin_call cfg n = true) :
    (scan cfg (some tree) r).1 = false ∧
    (∃ m, lookupCheck (scan cfg (some tree) r).2 "DISALLOWED_IMPORT"
      = some ⟨false, some m, none⟩) ∧
    (∃ m, lookupCheck (scan cfg (some tree) r).2 "DISALLOWED_BUILTIN"
      = some ⟨false, some m, none⟩) := by
  have himpv := import_violation_mem cfg tree hImp
  have hbuiv := builtin_violation_mem cfg tree hBui
  have hie : (import_violations cfg tree).isEmpty = false := by
    obtain ⟨v, hv, -⟩ := himpv
    cases hl : import_violations cfg tree with
    | nil =>
      rw [hl] at hv
      simp at hv
    | cons a t => rfl
  have hscan : scan cfg (some tree) r =
      (false, foldErrs (danger_violations tree) (foldErrs (network_violations tree)
        (foldErrs (fileop_violations tree) (foldErrs (builtin_violations cfg tree)
          (foldErrs (import_violations cfg tree) r))))) := by
    simp only [scan, check_imports, check_builtin_calls, check_file_operations,
      check_network_operations, check_dangerous_patterns]
    simp [hie]
  refine ⟨by rw [hscan], ?_, ?_⟩
  · rw [hscan]
    have h4 : ∀ v ∈ danger_violations tree, v.1 ≠ "DISALLOWED_IMPORT" := by
      intro v hv
      rw [danger_violation_keys tree v hv]
      decide
    have h3 : ∀ v ∈ network_violations tree, v.1 ≠ "DISALLOWED_IMPORT" := by
      intro v hv
      rw [network_violation_keys tree v hv]
      decide
    have h2 : ∀ v ∈ fileop_violations tree, v.1 ≠ "DISALLOWED_IMPORT" := by
      intro v hv
      rw [fileop_violation_keys tree v hv]
      decide
    have h1 : ∀ v ∈ builtin_violations cfg tree, v.1 ≠ "DISALLOWED_IMPORT" := by
      intro v hv
      rw [builtin_violation_keys cfg tree v hv]
      decide
    rw [foldErrs_lookup_of_not_mem _ _ _ h4, foldErrs_lookup_of_not_mem _ _ _ h3,
      foldErrs_lookup_of_not_mem _ _ _ h2, foldErrs_lookup_of_not_mem _ _ _ h1]
    exact foldErrs_lookup_failed _ r _ himpv
  · rw [hscan]
    have h4 : ∀ v ∈ danger_violations tree, v.1 ≠ "DISALLOWED_BUILTIN" := by
      intro v hv
      rw [danger_violation_keys tree v hv]
      decide
    have h3 : ∀ v ∈ network_violations tree, v.1 ≠ "DISALLOWED_BUILTIN" := by
      intro v hv
      rw [network_violation_keys tree v hv]
      decide
    have h2 : ∀ v ∈ fileop_violations tree, v.1 ≠ "DISALLOWED_BUILTIN" := by
      intro v hv
      rw [fileop_violation_keys tree v hv]
      decide
    rw [foldErrs_lookup_of_not_mem _ _ _ h4, foldErrs_lookup_of_not_mem _ _ _ h3,
      foldErrs_lookup_of_not_mem _ _ _ h2]
    exact foldErrs_lookup_failed _ _ _ hbuiv

/-- C3 witness: a tree embedding `import os` and `eval("1+1")` against the
unit-test policy fixture. -/
theorem C3_both_categories_witness :
    (scan ⟨["numpy", "pandas", "datetime", "typing", "math"],
        ["os", "sys", "subprocess", "socket"],
        ["eval", "exec", "__import__", "open"]⟩
      (some [.importN ["os"] 2, .callN (.name "eval") 7,
        .exprN (.callV (.name "eval")) 7]) ⟨[]⟩).1 = false ∧
    (∃ m, lookupCheck (scan ⟨["numpy", "pandas", "datetime", "typing", "math"],
        ["os", "sys", "subprocess", "socket"],
        ["eval", "exec", "__import__", "open"]⟩
      (some [.importN ["os"] 2, .callN (.name "eval") 7,
        .exprN (.callV (.name "eval")) 7]) ⟨[]⟩).2 "DISALLOWED_IMPORT"
      = some ⟨false, some m, none⟩) ∧
    (∃ m, lookupCheck (scan ⟨["numpy", "pandas", "datetime", "typing", "math"],
        ["os", "sys", "subprocess", "socket"],
        ["eval", "exec", "__import__", "open"]⟩
      (some [.importN ["os"] 2, .callN (.name "eval") 7,
        .exprN (.callV (.name "eval")) 7]) ⟨[]⟩).2 "DISALLOWED_BUILTIN"
      = some ⟨false, some m, none⟩) :=
  C3_both_categories _ _ ⟨[]⟩
    ⟨.importN ["os"] 2, by decide, by decide⟩
    ⟨.callN (.name "eval") 7, by decide, by decide⟩

/-- C6 counterexample: a class whose method table contains two overloads
of `simulateStep`, the second of which has exactly the required signature
`(J)V`.  The table does contain a method with the required name and a
byte-identical signature, yet `check_has_method` returns false (it stops
at the first name match and reports a fatal signature mismatch), refuting
the claimed equivalence. -/
theorem C6_counterexample :
    (("simulateStep", "(J)V") ∈
      (ClassData.mk [] [] [("simulateStep", "(I)V"), ("simulateStep", "(J)V")]).methods) ∧
    (check_has_method
      (.classData (some (ClassData.mk [] []
        [("simulateStep", "(I)V"), ("simulateStep", "(J)V")])))
      "simulateStep" "(J)V" ⟨[]⟩).1 = false ∧
    lookupCheck (check_has_method
      (.classData (some (ClassData.mk [] []
        [("simulateStep", "(I)V"), ("simulateStep", "(J)V")])))
      "simulateStep" "(J)V" ⟨[]⟩).2 "INVALID_METHOD_SIGNATURE"
      = some ⟨false, some (.invalidMethodSignature "simulateStep" "(J)V" "(I)V"), none⟩ :=
  ⟨by decide, rfl, rfl⟩

/-- C6 (amended): for every parsable class, `check_has_method` returns
true (and records a passing `method_signature_validation` check) iff the
FIRST method in the table with the required name has a byte-identical
signature; when that first name match has a differing signature the
result is a fatal `INVALID_METHOD_SIGNATURE` failure entry (error set,
no warning), not a warning. -/
theorem C6_first_match_semantics (cd : ClassData) (name sig : String) (r : Report) :
    ((check_has_method (.classData (some cd)) name sig r).1 = true ↔
      ∃ m, cd.methods.find? (fun p => p.1 == name) = some m ∧ m.2 = sig) ∧
    ((check_has_method (.classData (some cd)) name sig r).1 = true →
      lookupCheck (check_has_method (.classData (some cd)) name sig r).2
        "method_signature_validation" = some ⟨true, none, none⟩) ∧
    (∀ m, cd.methods.find? (fun p => p.1 == name) = some m → m.2 ≠ sig →
      (check_has_method (.classData (some cd)) name sig r).1 = false ∧
      lookupCheck (check_has_method (.classData (some cd)) name sig r).2
        "INVALID_METHOD_SIGNATURE"
        = some ⟨false, some (.invalidMethodSignature name sig m.2), none⟩) := by
  have hparse : class_parse (.classData (some cd)) = some cd := rfl
  unfold check_has_method
  simp only [hparse]
  cases hf : cd.methods.find? (fun p => p.1 == name) with
  | none =>
    simp only [hf]
    refine ⟨?_, ?_, ?_⟩
    · constructor
      · intro h
        simp at h
      · rintro ⟨m, hm, -⟩
        cases hm
    · intro h
      simp at h
    · intro m hm
      cases hm
  | some m =>
    simp only [hf]
    by_cases hs : (m.2 == sig) = true
    · rw [if_pos hs]
      refine ⟨?_, ?_, ?_⟩
      · constructor
        · intro _
          exact ⟨m, rfl, by simpa using hs⟩
        · intro _
          rfl
      · intro _
        exact lookupCheck_add_check_passed_self r "method_signature_validation"
      · intro m' hm' hne
        cases hm'
        exact absurd (by simpa using hs) hne
    · rw [if_neg hs]
      refine ⟨?_, ?_, ?_⟩
      · constructor
        · intro h
          simp at h
        · rintro ⟨m', hm', hsig⟩
          cases hm'
          exact absurd (by simp [hsig]) hs
      · intro h
        simp at h
      · intro m' hm' hne
        cases hm'
        exact ⟨rfl, lookupCheck_add_error_self r "INVALID_METHOD_SIGNATURE" _⟩

/-- C6 witness: the amended semantics applied to a class whose first
`simulateStep` has the wrong signature. -/
theorem C6_first_match_semantics_witness :
    (check_has_method (.classData (some (ClassData.mk [] []
        [("simulateStep", "(F)V"), ("simulateStep", "(D)V")])))
      "simulateStep" "(D)V" ⟨[]⟩).1 = false ∧
    lookupCheck (check_has_method (.classData (some (ClassData.mk [] []
        [("simulateStep", "(F)V"), ("simulateStep", "(D)V")])))
      "simulateStep" "(D)V" ⟨[]⟩).2 "INVALID_METHOD_SIGNATURE"
      = some ⟨false, some (.invalidMethodSignature "simulateStep" "(D)V" "(F)V"), none⟩ :=
  (C6_first_match_semantics (ClassData.mk [] []
      [("simulateStep", "(F)V"), ("simulateStep", "(D)V")])
    "simulateStep" "(D)V" ⟨[]⟩).2.2 ("simulateStep", "(F)V") (by rfl) (by decide)

/-- C5: evaluation of the scanner at the failing input.  The tree embeds
the source text consisting of the single statement calling the
dynamic-import primitive (its `ast.walk` yields the expression statement
and the call node), and the configured blocked-builtins set does not list
that primitive.  The builtin-call check records nothing, no
`DISALLOWED_BUILTIN` check appears, and the whole scan succeeds —
the `elif` that was meant to flag dynamic import independently of the
block set is unreachable in the source. -/
theorem C5_dynamic_import_not_flagged :
    (ScanConfig.mk ["pandas"] ["os"] []).blocked_builtins.contains "__import__"
      = false ∧
    (scan (ScanConfig.mk ["pandas"] ["os"] [])
      (some [.exprN (.callV (.name "__import__")) 1,
        .callN (.name "__import__") 1]) ⟨[]⟩).1 = true ∧
    lookupCheck (scan (ScanConfig.mk ["pandas"] ["os"] [])
      (some [.exprN (.callV (.name "__import__")) 1,
        .callN (.name "__import__") 1]) ⟨[]⟩).2 "DISALLOWED_BUILTIN" = none ∧
    (scan (ScanConfig.mk ["pandas"] ["os"] [])
      (some [.exprN (.callV (.name "__import__")) 1,
        .callN (.name "__import__") 1]) ⟨[]⟩).2
      = ⟨[("code_safety_scan", ⟨true, none, none⟩)]⟩ :=
  ⟨rfl, rfl, rfl, rfl⟩

/-- Whether a filename suffix selects a supported container family. -/
def supported_suffix (filename : String) : Bool :=
  pyEndsWith filename ".tar.gz" || pyEndsWith filename ".tgz" ||
    pyEndsWith filename ".zip"

/-- C4 counterexample: content that is a valid zip archive, declared under
the filename `foo.txt` whose suffix names no supported family, is still
extracted successfully by the JAR-track extractor — it ignores the
declared filename — refuting the claim that extraction fails whenever the
suffix is unsupported. -/
theorem C4_counterexample :
    supported_suffix "foo.txt" = false ∧
    extract_jar (.zipArc [⟨"model.txt", false, .otherBytes⟩]) "foo.txt"
      = some [("model.txt", .otherBytes)] :=
  ⟨rfl, rfl⟩

/-- C4 (amended): the source-track extractor selects the container family
by filename suffix alone and returns the failure value whenever the
suffix names no supported family; the JAR-track extractor ignores the
declared filename entirely — its result depends only on the content, so
zip content is accepted under any declared filename. -/
theorem C4_suffix_dispatch (c : ArchiveBytes) (f g : String)
    (h : supported_suffix f = false) :
    extract_archive c f = none ∧ extract_jar c f = extract_jar c g := by
  constructor
  · unfold supported_suffix at h
    simp only [Bool.or_eq_false_iff] at h
    obtain ⟨⟨h1, h2⟩, h3⟩ := h
    unfold extract_archive
    rw [if_neg (by simp [h1, h2]), if_neg (by simp [h3])]
  · cases c <;> rfl

/-- C4 witness: the amended dispatch behaviour at concrete inputs. -/
theorem C4_suffix_dispatch_witness :
    extract_archive (.zipArc [⟨"a/model.py", false, .otherBytes⟩]) "bundle.txt" = none ∧
    extract_jar (.zipArc [⟨"a/model.py", false, .otherBytes⟩]) "bundle.txt"
      = extract_jar (.zipArc [⟨"a/model.py", false, .otherBytes⟩]) "bundle.jar" :=
  C4_suffix_dispatch (.zipArc [⟨"a/model.py", false, .otherBytes⟩])
    "bundle.txt" "bundle.jar" (by rfl)

/-- The bytecode-track document shapes C9 calls "lacking": no
non-empty-string `model_id`, no string `version`, no non-empty-string
`author`, or no non-empty-string `model_class`. -/
def java_doc_lacks (fields : List (String × JValue)) : Bool :=
  !nonEmptyStrVal (jGet fields "model_id") || !isStrVal (jGet fields "version") ||
  !nonEmptyStrVal (jGet fields "author") || !nonEmptyStrVal (jGet fields "model_class")

/-- The source-track document shapes C9 calls "lacking". -/
def source_doc_lacks (fields : List (String × JValue)) : Bool :=
  !nonEmptyStrVal (jGet fields "model_id") || !isStrVal (jGet fields "version") ||
  !nonEmptyStrVal (jGet fields "author") || !isObjVal (jGet fields "expected_inputs") ||
  !isObjVal (jGet fields "output_format")

theorem pyMissingFields_obj (rf : List String) (fields : List (String × JValue)) :
    ∃ ms, pyMissingFields rf (JValue.obj fields) = .ok ms := by
  induction rf with
  | nil => exact ⟨[], rfl⟩
  | cons f t ih =>
    obtain ⟨ms, hms⟩ := ih
    refine ⟨if fields.any (fun p => p.1 == f) then ms else f :: ms, ?_⟩
    simp only [pyMissingFields, pyIn, hms]

theorem java_model_class_check_pres (fields : List (String × JValue)) (r : Report)
    (h : has_failed_check r = true) :
    has_failed_check (java_model_class_check fields r).2 = true := by
  unfold java_model_class_check
  by_cases hmc : nonEmptyStrVal (jGet fields "model_class") = true
  · rw [if_pos hmc]
    cases hv : jGet fields "model_class" with
    | none => exact h
    | some v =>
      cases v with
      | str s =>
        show has_failed_check
          (if (!(_is_valid_java_class_name s)) = true then
            (false, add_error r "INVALID_MODEL_CLASS_FORMAT"
              (.invalidModelClassFormat s))
          else (true, r)).2 = true
        by_cases hok : (!(_is_valid_java_class_name s)) = true
        · rw [if_pos hok]
          exact has_failed_check_add_error r _ _
        · rw [if_neg hok]
          exact h
      | null => exact h
      | bool b => exact h
      | num n => exact h
      | arr xs => exact h
      | obj fs => exact h
  · rw [if_neg hmc]
    exact has_failed_check_add_error r _ _

theorem java_model_class_check_false (fields : List (String × JValue)) (r : Report)
    (h : nonEmptyStrVal (jGet fields "model_class") = false) :
    (java_model_class_check fields r).1 = false ∧
    has_failed_check (java_model_class_check fields r).2 = true := by
  unfold java_model_class_check
  rw [if_neg (by simp [h])]
  exact ⟨rfl, has_failed_check_add_error r _ _⟩

theorem java_field_checks_lacks (fields : List (String × JValue)) (r : Report)
    (h : java_doc_lacks fields = true) :
    (java_field_checks fields r).1 = false ∧
    has_failed_check (java_field_checks fields r).2 = true := by
  have hd : nonEmptyStrVal (jGet fields "model_id") = false ∨
      isStrVal (jGet fields "version") = false ∨
      nonEmptyStrVal (jGet fields "author") = false ∨
      nonEmptyStrVal (jGet fields "model_class") = false := by
    simpa [java_doc_lacks, or_assoc] using h
  unfold java_field_checks
  rcases hd with h1 | h2 | h3 | h4
  · constructor
    · simp [h1]
    · simp only [h1, Bool.false_eq_true, if_false, Bool.false_and]
      apply java_model_class_check_pres
      apply has_failed_check_if_pres
      apply has_failed_check_if_pres
      exact has_failed_check_add_error r _ _
  · constructor
    · simp [h2]
    · simp only [h2, Bool.false_eq_true, if_false, Bool.and_false, Bool.false_and]
      apply java_model_class_check_pres
      apply has_failed_check_if_pres
      exact has_failed_check_add_error _ _ _
  · constructor
    · simp [h3]
    · simp only [h3, Bool.false_eq_true, if_false, Bool.and_false, Bool.false_and]
      apply java_model_class_check_pres
      exact has_failed_check_add_error _ _ _
  · obtain ⟨hm1, hm2⟩ := java_model_class_check_false fields
      (if nonEmptyStrVal (jGet fields "author") then
        (if isStrVal (jGet fields "version") then
          (if nonEmptyStrVal (jGet fields "model_id") then r
            else add_error r "INVALID_MODEL_ID" .invalidModelId)
          else add_error (if nonEmptyStrVal (jGet fields "model_id") then r
            else add_error r "INVALID_MODEL_ID" .invalidModelId)
            "INVALID_VERSION" .invalidVersion)
        else add_error (if isStrVal (jGet fields "version") then
          (if nonEmptyStrVal (jGet fields "model_id") then r
            else add_error r "INVALID_MODEL_ID" .invalidModelId)
          else add_error (if nonEmptyStrVal (jGet fields "model_id") then r
            else add_error r "INVALID_MODEL_ID" .invalidModelId)
            "INVALID_VERSION" .invalidVersion) "INVALID_AUTHOR" .invalidAuthor) h4
    constructor
    · simp [hm1]
    · simp only [hm1, Bool.and_false, Bool.false_eq_true, if_false]
      exact hm2

theorem source_inputs_check_pres (fields : List (String × JValue)) (r : Report)
    (h : has_failed_check r = true) :
    has_failed_check (source_inputs_check fields r).2 = true := by
  unfold source_inputs_check
  cases hv : jGet fields "expected_inputs" with
  | none => exact has_failed_check_add_error r _ _
  | some v =>
    cases v with
    | obj ei =>
      show has_failed_check
        (if (!((["stock_prices", "volume", "timestamps"]).filter
            (fun inp => !(ei.any (fun p => p.1 == inp)))).isEmpty) = true then
          (false, add_error r "MISSING_INPUT_FIELDS" (.missingInputFields
            ((["stock_prices", "volume", "timestamps"]).filter
              (fun inp => !(ei.any (fun p => p.1 == inp))))))
        else (true, r)).2 = true
      split
      · exact has_failed_check_add_error r _ _
      · exact h
    | null => exact has_failed_check_add_error r _ _
    | bool b => exact has_failed_check_add_error r _ _
    | num n => exact has_failed_check_add_error r _ _
    | str s => exact has_failed_check_add_error r _ _
    | arr xs => exact has_failed_check_add_error r _ _

theorem source_inputs_check_false (fields : List (String × JValue)) (r : Report)
    (h : isObjVal (jGet fields "expected_inputs") = false) :
    (source_inputs_check fields r).1 = false ∧
    has_failed_check (source_inputs_check fields r).2 = true := by
  unfold source_inputs_check
  cases hv : jGet fields "expected_inputs" with
  | none => exact ⟨rfl, has_failed_check_add_error r _ _⟩
  | some v =>
    cases v with
    | obj ei =>
      rw [hv] at h
      simp [isObjVal] at h
    | null => exact ⟨rfl, has_failed_check_add_error r _ _⟩
    | bool b => exact ⟨rfl, has_failed_check_add_error r _ _⟩
    | num n => exact ⟨rfl, has_failed_check_add_error r _ _⟩
    | str s => exact ⟨rfl, has_failed_check_add_error r _ _⟩
    | arr xs => exact ⟨rfl, has_failed_check_add_error r _ _⟩

theorem source_outputs_check_pres (fields : List (String × JValue)) (r : Report)
    (h : has_failed_check r = true) :
    has_failed_check (source_outputs_check fields r).2 = true := by
  unfold source_outputs_check
  cases hv : jGet fields "output_format" with
  | none => exact has_failed_check_add_error r _ _
  | some v =>
    cases v with
    | obj om =>
      show has_failed_check
        (if (!((["signal", "confidence"]).filter
            (fun out => !(om.any (fun p => p.1 == out)))).isEmpty) = true then
          (false, add_error r "MISSING_OUTPUT_FIELDS" (.missingOutputFields
            ((["signal", "confidence"]).filter
              (fun out => !(om.any (fun p => p.1 == out))))))
        else (true, r)).2 = true
      split
      · exact has_failed_check_add_error r _ _
      · exact h
    | null => exact has_failed_check_add_error r _ _
    | bool b => exact has_failed_check_add_error r _ _
    | num n => exact has_failed_check_add_error r _ _
    | str s => exact has_failed_check_add_error r _ _
    | arr xs => exact has_failed_check_add_error r _ _

theorem source_outputs_check_false (fields : List (String × JValue)) (r : Report)
    (h : isObjVal (jGet fields "output_format") = false) :
    (source_outputs_check fields r).1 = false ∧
    has_failed_check (source_outputs_check fields r).2 = true := by
  unfold source_outputs_check
  cases hv : jGet fields "output_format" with
  | none => exact ⟨rfl, has_failed_check_add_error r _ _⟩
  | some v =>
    cases v with
    | obj om =>
      rw [hv] at h
      simp [isObjVal] at h
    | null => exact ⟨rfl, has_failed_check_add_error r _ _⟩
    | bool b => exact ⟨rfl, has_failed_check_add_error r _ _⟩
    | num n => exact ⟨rfl, has_failed_check_add_error r _ _⟩
    | str s => exact ⟨rfl, has_failed_check_add_error r _ _⟩
    | arr xs => exact ⟨rfl, has_failed_check_add_error r _ _⟩

theorem source_field_checks_lacks (fields : List (String × JValue)) (r : Report)
    (h : source_doc_lacks fields = true) :
    (source_field_checks fields r).1 = false ∧
    has_failed_check (source_field_checks fields r).2 = true := by
  have hd : nonEmptyStrVal (jGet fields "model_id") = false ∨
      isStrVal (jGet fields "version") = false ∨
      nonEmptyStrVal (jGet fields "author") = false ∨
      isObjVal (jGet fields "expected_inputs") = false ∨
      isObjVal (jGet fields "output_format") = false := by
    simpa [source_doc_lacks, or_assoc] using h
  unfold source_field_checks
  rcases hd with h1 | h2 | h3 | h4 | h5
  · constructor
    · simp [h1]
    · simp only [h1, Bool.false_eq_true, if_false, Bool.false_and]
      apply source_outputs_check_pres
      apply source_inputs_check_pres
      apply has_failed_check_if_pres
      apply has_failed_check_if_pres
      exact has_failed_check_add_error r _ _
  · constructor
    · simp [h2]
    · simp only [h2, Bool.false_eq_true, if_false, Bool.and_false, Bool.false_and]
      apply source_outputs_check_pres
      apply source_inputs_check_pres
      apply has_failed_check_if_pres
      exact has_failed_check_add_error _ _ _
  · constructor
    · simp [h3]
    · simp only [h3, Bool.false_eq_true, if_false, Bool.and_false, Bool.false_and]
      apply source_outputs_check_pres
      apply source_inputs_check_pres
      exact has_failed_check_add_error _ _ _
  · obtain ⟨hm1, hm2⟩ := source_inputs_check_false fields
      (if nonEmptyStrVal (jGet fields "author") then
        (if isStrVal (jGet fields "version") then
          (if nonEmptyStrVal (jGet fields "model_id") then r
            else add_error r "INVALID_MODEL_ID" .invalidModelId)
          else add_error (if nonEmptyStrVal (jGet fields "model_id") then r
            else add_error r "INVALID_MODEL_ID" .invalidModelId)
            "INVALID_VERSION" .invalidVersion)
        else add_error (if isStrVal (jGet fields "version") then
          (if nonEmptyStrVal (jGet fields "model_id") then r
            else add_error r "INVALID_MODEL_ID" .invalidModelId)
          else add_error (if nonEmptyStrVal (jGet fields "model_id") then r
            else add_error r "INVALID_MODEL_ID" .invalidModelId)
            "INVALID_VERSION" .invalidVersion) "INVALID_AUTHOR" .invalidAuthor) h4
    constructor
    · simp [hm1]
    · simp only [hm1, Bool.and_false, Bool.false_and, Bool.false_eq_true, if_false]
      apply source_outputs_check_pres
      exact hm2
  · obtain ⟨hm1, hm2⟩ := source_outputs_check_false fields
      (source_inputs_check fields
        (if nonEmptyStrVal (jGet fields "author") then
          (if isStrVal (jGet fields "version") then
            (if nonEmptyStrVal (jGet fields "model_id") then r
              else add_error r "INVALID_MODEL_ID" .invalidModelId)
            else add_error (if nonEmptyStrVal (jGet fields "model_id") then r
              else add_error r "INVALID_MODEL_ID" .invalidModelId)
              "INVALID_VERSION" .invalidVersion)
          else add_error (if isStrVal (jGet fields "version") then
            (if nonEmptyStrVal (jGet fields "model_id") then r
              else add_error r "INVALID_MODEL_ID" .invalidModelId)
            else add_error (if nonEmptyStrVal (jGet fields "model_id") then r
              else add_error r "INVALID_MODEL_ID" .invalidModelId)
              "INVALID_VERSION" .invalidVersion) "INVALID_AUTHOR" .invalidAuthor)).2 h5
    constructor
    · simp [hm1]
    · simp only [hm1, Bool.and_false, Bool.false_and, Bool.false_eq_true, if_false]
      exact hm2

/-- C9 counterexample: with the empty `required_fields` list the claim
explicitly includes, a document that parses as JSON (a top-level array)
and lacks a non-empty-string `model_id` makes `validate()` raise
`AttributeError` (at `metadata.get`) instead of returning false, and no
check is recorded — refuting the claim as stated for non-object JSON
documents. -/
theorem C9_counterexample :
    (java_validate [] (some (.arr [])) ⟨[]⟩).1 = Except.error PyErr.attributeError ∧
    (java_validate [] (some (.arr [])) ⟨[]⟩).2 = ⟨[]⟩ :=
  ⟨rfl, rfl⟩

/-- C9 (amended): for every `required_fields` value (including the empty
list), a metadata document that parses as a JSON OBJECT but lacks a
non-empty-string `model_id` — or, per track, a string `version`, a
non-empty-string `author`, an object-shaped `expected_inputs` /
`output_format`, or a non-empty-string `model_class` — makes `validate()`
return false with a failed check recorded, independently of
`required_fields`. -/
theorem C9_hardcoded_checks (rf : List String) (fields : List (String × JValue))
    (r : Report) :
    (java_doc_lacks fields = true →
      (java_validate rf (some (.obj fields)) r).1 = Except.ok false ∧
      has_failed_check (java_validate rf (some (.obj fields)) r).2 = true) ∧
    (source_doc_lacks fields = true →
      (source_validate rf (some (.obj fields)) r).1 = Except.ok false ∧
      has_failed_check (source_validate rf (some (.obj fields)) r).2 = true) := by
  obtain ⟨ms, hms⟩ := pyMissingFields_obj rf fields
  constructor
  · intro h
    unfold java_validate
    simp only [hms]
    by_cases hm : ms.isEmpty = true
    · rw [if_neg (by simp [hm])]
      obtain ⟨hf1, hf2⟩ := java_field_checks_lacks fields r h
      exact ⟨by rw [hf1], hf2⟩
    · rw [if_pos (by simp [Bool.eq_false_iff.mpr hm])]
      exact ⟨rfl, has_failed_check_add_error r _ _⟩
  · intro h
    unfold source_validate
    simp only [hms]
    by_cases hm : ms.isEmpty = true
    · rw [if_neg (by simp [hm])]
      obtain ⟨hf1, hf2⟩ := source_field_checks_lacks fields r h
      exact ⟨by rw [hf1], hf2⟩
    · rw [if_pos (by simp [Bool.eq_false_iff.mpr hm])]
      exact ⟨rfl, has_failed_check_add_error r _ _⟩

/-- C9 witness: both validators at a concrete object lacking `model_id`
(and the track-specific fields), with empty `required_fields`. -/
theorem C9_hardcoded_checks_witness :
    (java_validate [] (some (.obj [("version", JValue.str "1")])) ⟨[]⟩).1
      = Except.ok false ∧
    has_failed_check
      (java_validate [] (some (.obj [("version", JValue.str "1")])) ⟨[]⟩).2 = true ∧
    (source_validate [] (some (.obj [("version", JValue.str "1")])) ⟨[]⟩).1
      = Except.ok false ∧
    has_failed_check
      (source_validate [] (some (.obj [("version", JValue.str "1")])) ⟨[]⟩).2 = true :=
  ⟨((C9_hardcoded_checks [] [("version", JValue.str "1")] ⟨[]⟩).1 (by rfl)).1,
    ((C9_hardcoded_checks [] [("version", JValue.str "1")] ⟨[]⟩).1 (by rfl)).2,
    ((C9_hardcoded_checks [] [("version", JValue.str "1")] ⟨[]⟩).2 (by rfl)).1,
    ((C9_hardcoded_checks [] [("version", JValue.str "1")] ⟨[]⟩).2 (by rfl)).2⟩

/-- C7: for every declared size strictly above the ceiling, the pipeline
halts after the size gate (no extraction, structure, metadata or scan step
begins) and the report holds EXACTLY one check: the failed FILE_TOO_LARGE
size gate. -/
theorem C7_size_gate (sec : SecurityConfig) (val : ValidationConfig)
    (file_size : Nat) (object_key : String) (content : ArchiveBytes)
    (h : file_size > val.max_file_size_bytes) :
    ∃ o, lambda_handler sec val file_size object_key content = .ok o ∧
      o.steps = ["size_check"] ∧ o.status = "INVALID" ∧
      o.report.checks = [("FILE_TOO_LARGE",
        ⟨false, some (.fileTooLarge file_size val.max_file_size_bytes), none⟩)] := by
  have hc : check_file_size val.max_file_size_bytes file_size ⟨[]⟩ =
      (false, add_error ⟨[]⟩ "FILE_TOO_LARGE"
        (.fileTooLarge file_size val.max_file_size_bytes)) := by
    unfold check_file_size
    rw [if_pos h]
  unfold lambda_handler pipeline_head
  simp only [hc]
  exact ⟨_, rfl, rfl, rfl, by rfl⟩

/-! ### Concrete fixtures for the pipeline claims -/

/-- Policy fixture (`allowed_imports.json` shape). -/
def secFix : SecurityConfig :=
  ⟨["java/util"], ["java/io"], ["java/lang/Runtime"], ["java/lang/Runtime.exec"]⟩

/-- Validation fixture (`validation_rules.json` shape). -/
def valFix : ValidationConfig :=
  ⟨["metadata.json"], 1000, ["model_id", "version", "author", "model_class"],
    "com/ttsudio/alphaback/Model", "simulateStep", "(I)V"⟩

/-- A well-formed metadata.json for the fixtures. -/
def metaFix : Bytes :=
  .jsonLike (some (.obj [("model_id", .str "m1"), ("version", .str "1.0"),
    ("author", .str "au"), ("model_class", .str "com.example.MyImpl")]))

/-- The primary model class: clean pool, required interface, required
method with the required signature. -/
def primaryCdFix : ClassData :=
  ⟨[], ["com/ttsudio/alphaback/Model"], [("simulateStep", "(I)V")]⟩

/-- A helper class calling the blocked `java/lang/Runtime.exec`. -/
def helperMethodCdFix : ClassData :=
  ⟨[.methodRef "java/lang/Runtime" "exec" "()V"], [], []⟩

/-- A helper class referencing the blocked class `java/lang/Runtime`. -/
def helperClassCdFix : ClassData :=
  ⟨[.classC "java/lang/Runtime"], [], []⟩

/-- Bundle whose primary passes everything and whose helper calls a
blocked method. -/
def bundleFix : ArchiveBytes :=
  .zipArc [⟨"metadata.json", false, metaFix⟩,
    ⟨"com/example/MyImpl.class", false, .classData (some primaryCdFix)⟩,
    ⟨"com/example/Helper.class", false, .classData (some helperMethodCdFix)⟩]

/-- Bundle whose primary passes everything and whose helper references a
blocked class. -/
def bundle2Fix : ArchiveBytes :=
  .zipArc [⟨"metadata.json", false, metaFix⟩,
    ⟨"com/example/MyImpl.class", false, .classData (some primaryCdFix)⟩,
    ⟨"com/example/Helper2.class", false, .classData (some helperClassCdFix)⟩]

/-- C7 witness: the size gate at a concrete oversized declared size. -/
theorem C7_size_gate_witness :
    handler_status (lambda_handler secFix valFix 5000 "models/m.jar" bundleFix)
      = some "INVALID" ∧
    (∃ o, lambda_handler secFix valFix 5000 "models/m.jar" bundleFix = .ok o ∧
      o.steps = ["size_check"] ∧
      o.report.checks = [("FILE_TOO_LARGE", ⟨false, some (.fileTooLarge 5000 1000), none⟩)]) := by
  obtain ⟨o, ho, hsteps, hstat, hchecks⟩ :=
    C7_size_gate secFix valFix 5000 "models/m.jar" bundleFix (by decide)
  exact ⟨by simp only [ho, handler_status, hstat], ⟨o, ho, hsteps, hchecks⟩⟩

/-- C1 counterexample: a bundle whose primary class passes every check but
whose one helper class calls a blocked method.  The pipeline does not halt
and reports status VALID, exactly as the claim says — but the helper
violation is written into the report as a FAILED check, not a warning, so
the final report has `verified = false`, refuting the claim. -/
theorem C1_counterexample :
    helper_violation secFix valFix 10 "models/m.jar" bundleFix = true ∧
    handler_status (lambda_handler secFix valFix 10 "models/m.jar" bundleFix)
      = some "VALID" ∧
    handler_verified (lambda_handler secFix valFix 10 "models/m.jar" bundleFix)
      = some false :=
  ⟨rfl, rfl, rfl⟩

/-- C1 (amended): whenever the run reaches the helper loop and some
non-skipped helper fails the bytecode scan, the pipeline still does not
halt — the handler completes with status VALID — but the helper violation
is recorded as a failed check, so the final report has verified = false:
helper violations DO flip the reported verdict. -/
theorem C1_helper_violation_flips (sec : SecurityConfig) (val : ValidationConfig)
    (file_size : Nat) (object_key : String) (content : ArchiveBytes)
    (h : helper_violation sec val file_size object_key content = true) :
    ∃ o, lambda_handler sec val file_size object_key content = Except.ok o ∧
      o.status = "VALID" ∧ is_verified o.report = false := by
  unfold helper_violation at h
  unfold lambda_handler
  cases hph : pipeline_head sec val file_size object_key content with
  | halted o =>
    simp only [hph] at h
    exact absurd h (by decide)
  | raised e =>
    simp only [hph] at h
    exact absurd h (by decide)
  | proceed rep mid mc files steps =>
    simp only [hph] at h
    simp only [hph]
    refine ⟨_, rfl, rfl, ?_⟩
    exact scan_helpers_not_verified sec files mc rep h

/-- C1 witness: the amended statement at a second concrete bundle whose
helper references a blocked class. -/
theorem C1_helper_violation_flips_witness :
    handler_status (lambda_handler secFix valFix 9 "m2.jar" bundle2Fix)
      = some "VALID" ∧
    handler_verified (lambda_handler secFix valFix 9 "m2.jar" bundle2Fix)
      = some false := by
  obtain ⟨o, ho, hs, hv⟩ :=
    C1_helper_violation_flips secFix valFix 9 "m2.jar" bundle2Fix (by rfl)
  exact ⟨by simp only [ho, handler_status, hs],
    by simp only [ho, handler_verified, hv]⟩
